import Mathlib

/-!
# TestNetwork ticket chaincode

A shallow embedding of `examples/chaincode/go/TestNetwork/TestNetwork.go`.

* Go `string` and `[]byte` values are byte sequences: `Bytes`, a list of naturals, where a
  real byte is a natural below 256.  Everything proved for all lists holds for byte strings.
* The standard library pieces the handlers call (`unicode/utf8`, `encoding/json` for the
  `Ticket` struct, `strconv.Itoa`) are embedded as executable functions.
* The host stub (`shim.ChaincodeStubInterface`) is a key-value ledger with get, put and range
  iteration, each of which may fail; `hostOf L` is the host that serves the ledger `L` without
  failures.
* `encoding/json` is the one of the Go releases the contract was written for: control
  characters other than tab, newline and carriage return are written as `\u00XX`.
* `fmt.Println` / `fmt.Printf` only write to standard output and are left out.  Line 109 of
  the source prints `ticket[i]`, a misspelling of `tickets[i]`; it is output only.
-/

namespace TestNetwork

/-- Go byte strings (`string`, `[]byte`): the list of their bytes. A `nil` slice is `[]`. -/
abbrev Bytes := List Nat

/-! ## unicode/utf8 -/

/-- Go: `utf8.RuneError`, the replacement character U+FFFD. -/
def RuneError : Nat := 0xFFFD

/-- Go: `utf8.EncodeRune`. Shifts and masks are written as division and remainder:
`r>>6` is `r / 64`, `r&maskx` is `r % 64`. -/
def EncodeRune (r : Nat) : Bytes :=
  if r ≤ 0x7F then [r]
  else if r ≤ 0x7FF then [0xC0 + r / 64, 0x80 + r % 64]
  else if 0x10FFFF < r ∨ (0xD800 ≤ r ∧ r ≤ 0xDFFF) then [0xEF, 0xBF, 0xBD]
  else if r ≤ 0xFFFF then [0xE0 + r / 4096, 0x80 + r / 64 % 64, 0x80 + r % 64]
  else [0xF0 + r / 262144, 0x80 + r / 4096 % 64, 0x80 + r / 64 % 64, 0x80 + r % 64]

/-- The bytes of a source-code string literal (Go source is UTF-8). -/
def utf8 (s : String) : Bytes := s.data.flatMap (fun c => EncodeRune c.toNat)

/-- Go: `utf8.DecodeRuneInString`, returning the rune and its width in bytes.
The `first` table is spelled out by ranges: bytes `0x80..0xC1` and above `0xF4` are invalid
lead bytes; `0xC2..0xDF` lead 2 bytes, `0xE0..0xEF` 3 bytes, `0xF0..0xF4` 4 bytes; the accepted
range of the second byte is narrowed for `0xE0`, `0xED`, `0xF0`, `0xF4`.  The masks and shifts
are written as remainders and products: `s0&mask2` is `s0 % 32`, `s1&maskx` is `s1 % 64`,
`<<6` is `* 64`; the or of disjoint bit fields is their sum. -/
def DecodeRune (s : Bytes) : Nat × Nat :=
  match s with
  | [] => (RuneError, 0)
  | s0 :: t =>
    if s0 < 0x80 then (s0, 1)
    else if s0 < 0xC2 ∨ 0xF4 < s0 then (RuneError, 1)
    else
      let sz := if s0 < 0xE0 then 2 else if s0 < 0xF0 then 3 else 4
      let lo := if s0 = 0xE0 then 0xA0 else if s0 = 0xF0 then 0x90 else 0x80
      let hi := if s0 = 0xED then 0x9F else if s0 = 0xF4 then 0x8F else 0xBF
      if t.length + 1 < sz then (RuneError, 1)
      else
        let s1 := t.getD 0 0
        if s1 < lo ∨ hi < s1 then (RuneError, 1)
        else if sz ≤ 2 then (s0 % 32 * 64 + s1 % 64, 2)
        else
          let s2 := t.getD 1 0
          if s2 < 0x80 ∨ 0xBF < s2 then (RuneError, 1)
          else if sz ≤ 3 then (s0 % 16 * 4096 + s1 % 64 * 64 + s2 % 64, 3)
          else
            let s3 := t.getD 2 0
            if s3 < 0x80 ∨ 0xBF < s3 then (RuneError, 1)
            else (s0 % 8 * 262144 + s1 % 64 * 4096 + s2 % 64 * 64 + s3 % 64, 4)

/-- Go: `utf8.ValidString`, with the remaining length as fuel: every decoding step yields a
rune, never the width-1 error. -/
def validAux : Nat → Bytes → Bool
  | 0, s => s.isEmpty
  | _ + 1, [] => true
  | fuel + 1, b :: rest =>
    if (DecodeRune (b :: rest)).1 = RuneError ∧ (DecodeRune (b :: rest)).2 = 1 then false
    else validAux fuel (rest.drop ((DecodeRune (b :: rest)).2 - 1))

/-- Go: `utf8.ValidString`. -/
def ValidString (s : Bytes) : Bool := validAux s.length s

/-! ## The data model -/

/-- Go: `type Ticket struct`, four string fields. -/
structure Ticket where
  Organisator : Bytes
  Event : Bytes
  Date : Bytes
  Owner : Bytes
deriving DecidableEq, Repr

/-! ## encoding/json, encoder -/

/-- Go: `hex[n]` in `encoding/json`, indexing the digit string. -/
def hex (n : Nat) : Nat := (utf8 "0123456789abcdef").getD n 0

/-- Go: `htmlSafeSet[b]` for an ASCII byte: printable, and none of `"`, `\`, `&`, `<`, `>`. -/
def htmlSafeSet (b : Nat) : Bool :=
  decide (0x20 ≤ b ∧ b < 0x80 ∧ b ≠ 0x22 ∧ b ≠ 0x5C ∧ b ≠ 0x26 ∧ b ≠ 0x3C ∧ b ≠ 0x3E)

/-- Go: the loop of `(*encodeState).string` with `escapeHTML = true`, without the two quotes;
the fuel is the number of bytes left. -/
def stringBody : Nat → Bytes → Bytes
  | 0, _ => []
  | _ + 1, [] => []
  | fuel + 1, b :: rest =>
    if b < 0x80 then
      (if htmlSafeSet b then [b]
       else if b = 0x5C ∨ b = 0x22 then [0x5C, b]
       else if b = 0x0A then [0x5C, 0x6E]
       else if b = 0x0D then [0x5C, 0x72]
       else if b = 0x09 then [0x5C, 0x74]
       else utf8 "\\u00" ++ [hex (b / 16), hex (b % 16)]) ++ stringBody fuel rest
    else if (DecodeRune (b :: rest)).1 = RuneError ∧ (DecodeRune (b :: rest)).2 = 1 then
      utf8 "\\ufffd" ++ stringBody fuel rest
    else if (DecodeRune (b :: rest)).1 = 0x2028 ∨ (DecodeRune (b :: rest)).1 = 0x2029 then
      utf8 "\\u202" ++ [hex ((DecodeRune (b :: rest)).1 % 16)]
        ++ stringBody fuel (rest.drop ((DecodeRune (b :: rest)).2 - 1))
    else
      b :: rest.take ((DecodeRune (b :: rest)).2 - 1)
        ++ stringBody fuel (rest.drop ((DecodeRune (b :: rest)).2 - 1))

/-- Go: `(*encodeState).string(s, true)`: the quoted JSON string for `s`. -/
def encodeString (s : Bytes) : Bytes := 0x22 :: stringBody s.length s ++ [0x22]

/-- Go: `json.Marshal(ticket)` for a `Ticket`: the four tagged fields in declaration order.
Marshalling a struct of strings cannot fail. -/
def Marshal (t : Ticket) : Bytes :=
  utf8 "\x7b\"organisator\":" ++ encodeString t.Organisator
    ++ utf8 ",\"event\":" ++ encodeString t.Event
    ++ utf8 ",\"date\":" ++ encodeString t.Date
    ++ utf8 ",\"owner\":" ++ encodeString t.Owner ++ utf8 "\x7d"

/-! ## encoding/json, decoder -/

/-- A parsed JSON value. -/
inductive JValue where
  | null
  | bool (b : Bool)
  | number
  | string (s : Bytes)
  | array (elems : List JValue)
  | object (members : List (Bytes × JValue))

/-- Go: `isSpace` of the JSON scanner: space, tab, carriage return, newline. -/
def isSpace (c : Nat) : Bool := decide (c = 0x20 ∨ c = 0x09 ∨ c = 0x0D ∨ c = 0x0A)

/-- Skip JSON white space. -/
def skipSpace : Bytes → Bytes
  | [] => []
  | c :: r => if isSpace c then skipSpace r else c :: r

/-- The value of a hexadecimal digit, either case. -/
def unhex (c : Nat) : Option Nat :=
  if 0x30 ≤ c ∧ c ≤ 0x39 then some (c - 0x30)
  else if 0x61 ≤ c ∧ c ≤ 0x66 then some (c - 0x61 + 10)
  else if 0x41 ≤ c ∧ c ≤ 0x46 then some (c - 0x41 + 10)
  else none

/-- Go: `getu4`, the rune of a leading `\uXXXX`, or `none` (Go: -1). -/
def getu4 (s : Bytes) : Option Nat :=
  match s with
  | b :: u :: h1 :: h2 :: h3 :: h4 :: _ =>
    if b = 0x5C ∧ u = 0x75 then
      match unhex h1, unhex h2, unhex h3, unhex h4 with
      | some a, some b, some c, some d => some (a * 4096 + b * 256 + c * 16 + d)
      | _, _, _, _ => none
    else none
  | _ => none

/-- Go: `utf16.DecodeRune r1 r2` for a second rune that may be missing: the code point of a
valid surrogate pair, otherwise `none` (Go: the replacement character). -/
def decodeSurrogates (r1 : Nat) (r2 : Option Nat) : Option Nat :=
  match r2 with
  | some r2 =>
    if 0xD800 ≤ r1 ∧ r1 < 0xDC00 ∧ 0xDC00 ≤ r2 ∧ r2 < 0xE000 then
      some ((r1 - 0xD800) * 1024 + (r2 - 0xDC00) + 0x10000)
    else none
  | none => none

/-- The byte a one-letter escape stands for, for the escapes the scanner accepts. -/
def unescape (e : Nat) : Option Nat :=
  if e = 0x22 ∨ e = 0x5C ∨ e = 0x2F then some e
  else if e = 0x62 then some 0x08
  else if e = 0x66 then some 0x0C
  else if e = 0x6E then some 0x0A
  else if e = 0x72 then some 0x0D
  else if e = 0x74 then some 0x09
  else none

/-- Go: the scanner states `stateInString*` together with `unquoteBytes`, started after the
opening quote: the decoded string and the input after the closing quote, or `none` for a
malformed literal.  Escapes are decoded, other bytes are coerced to valid UTF-8. -/
def unquoteAux : Nat → Bytes → Option (Bytes × Bytes)
  | 0, _ => none
  | _ + 1, [] => none
  | fuel + 1, c :: r =>
    if c = 0x22 then some ([], r)
    else if c < 0x20 then none
    else if c = 0x5C then
      match r with
      | [] => none
      | e :: r1 =>
        if e = 0x75 then
          match getu4 (c :: r) with
          | none => none
          | some rr =>
            if 0xD800 ≤ rr ∧ rr < 0xE000 then
              match decodeSurrogates rr (getu4 (r1.drop 4)) with
              | some dec =>
                (unquoteAux fuel (r1.drop 10)).map (fun p => (EncodeRune dec ++ p.1, p.2))
              | none =>
                (unquoteAux fuel (r1.drop 4)).map (fun p => (EncodeRune RuneError ++ p.1, p.2))
            else (unquoteAux fuel (r1.drop 4)).map (fun p => (EncodeRune rr ++ p.1, p.2))
        else
          match unescape e with
          | none => none
          | some x => (unquoteAux fuel r1).map (fun p => (x :: p.1, p.2))
    else if c < 0x80 then (unquoteAux fuel r).map (fun p => (c :: p.1, p.2))
    else
      (unquoteAux fuel (r.drop ((DecodeRune (c :: r)).2 - 1))).map
        (fun p => (EncodeRune (DecodeRune (c :: r)).1 ++ p.1, p.2))

/-- A string literal after its opening quote. -/
def unquote (s : Bytes) : Option (Bytes × Bytes) := unquoteAux s.length s

/-- Skip decimal digits. -/
def skipDigits : Bytes → Bytes
  | [] => []
  | c :: r => if 0x30 ≤ c ∧ c ≤ 0x39 then skipDigits r else c :: r

/-- One or more digits. -/
def digits1 (s : Bytes) : Option Bytes :=
  match s with
  | c :: r => if 0x30 ≤ c ∧ c ≤ 0x39 then some (skipDigits r) else none
  | [] => none

/-- The exponent part of a number, if there is one. -/
def scanExponent (s : Bytes) : Option Bytes :=
  match s with
  | c :: r =>
    if c = 0x65 ∨ c = 0x45 then
      match r with
      | sg :: r1 => if sg = 0x2B ∨ sg = 0x2D then digits1 r1 else digits1 r
      | [] => none
    else some s
  | [] => some s

/-- The fraction and exponent parts of a number, if any. -/
def scanFraction (s : Bytes) : Option Bytes :=
  match s with
  | c :: r => if c = 0x2E then (digits1 r).bind scanExponent else scanExponent s
  | [] => some s

/-- The integer part of a number: `0`, or a non-zero digit and more digits. -/
def scanInteger (s : Bytes) : Option Bytes :=
  match s with
  | c :: r =>
    if c = 0x30 then scanFraction r
    else if 0x31 ≤ c ∧ c ≤ 0x39 then scanFraction (skipDigits r)
    else none
  | [] => none

/-- A JSON number: the input after it. -/
def scanNumber (s : Bytes) : Option Bytes :=
  match s with
  | c :: r => if c = 0x2D then scanInteger r else scanInteger s
  | [] => none

/-- Strip a literal word from the front. -/
def stripWord : Bytes → Bytes → Option Bytes
  | [], s => some s
  | _ :: _, [] => none
  | w :: ws, c :: r => if w = c then stripWord ws r else none

mutual
/-- A JSON value with optional leading white space, and the input after it. The fuel bounds
the depth of the calls.  A call either follows at least one consumed byte or parses the first
element of an array, whose closing bracket is still to come, so the input length plus one is
always enough fuel. -/
def parseValue : Nat → Bytes → Option (JValue × Bytes)
  | 0, _ => none
  | fuel + 1, s =>
    match skipSpace s with
    | [] => none
    | c :: r =>
      if c = 0x7B then
        match skipSpace r with
        | [] => none
        | d :: r1 =>
          if d = 0x7D then some (JValue.object [], r1)
          else (parseMembers fuel (d :: r1)).map (fun p => (JValue.object p.1, p.2))
      else if c = 0x5B then
        match skipSpace r with
        | [] => none
        | d :: r1 =>
          if d = 0x5D then some (JValue.array [], r1)
          else (parseElements fuel (d :: r1)).map (fun p => (JValue.array p.1, p.2))
      else if c = 0x22 then (unquote r).map (fun p => (JValue.string p.1, p.2))
      else if c = 0x74 then (stripWord (utf8 "rue") r).map (fun r1 => (JValue.bool true, r1))
      else if c = 0x66 then (stripWord (utf8 "alse") r).map (fun r1 => (JValue.bool false, r1))
      else if c = 0x6E then (stripWord (utf8 "ull") r).map (fun r1 => (JValue.null, r1))
      else (scanNumber (c :: r)).map (fun r1 => (JValue.number, r1))
/-- The members of a non-empty object, from the first key to the closing brace. -/
def parseMembers : Nat → Bytes → Option (List (Bytes × JValue) × Bytes)
  | 0, _ => none
  | fuel + 1, s =>
    match s with
    | [] => none
    | q :: r =>
      if q = 0x22 then
        match unquote r with
        | none => none
        | some (key, r1) =>
          match skipSpace r1 with
          | [] => none
          | colon :: r2 =>
            if colon = 0x3A then
              match parseValue fuel r2 with
              | none => none
              | some (v, r3) =>
                match skipSpace r3 with
                | [] => none
                | d :: r4 =>
                  if d = 0x7D then some ([(key, v)], r4)
                  else if d = 0x2C then
                    (parseMembers fuel (skipSpace r4)).map (fun p => ((key, v) :: p.1, p.2))
                  else none
            else none
      else none
/-- The elements of a non-empty array, from the first element to the closing bracket. -/
def parseElements : Nat → Bytes → Option (List JValue × Bytes)
  | 0, _ => none
  | fuel + 1, s =>
    match parseValue fuel s with
    | none => none
    | some (v, r) =>
      match skipSpace r with
      | [] => none
      | d :: r1 =>
        if d = 0x5D then some ([v], r1)
        else if d = 0x2C then (parseElements fuel r1).map (fun p => (v :: p.1, p.2))
        else none
end

/-- Go: `checkValid` and the scan of the whole input: one JSON value, white space around it,
nothing else. -/
def parseJSON (data : Bytes) : Option JValue :=
  match parseValue (data.length + 1) data with
  | some (v, rest) => if (skipSpace rest).isEmpty then some v else none
  | none => none

/-- The fields of `Ticket`, in declaration order. -/
inductive Field where
  | organisator
  | event
  | date
  | owner
deriving DecidableEq, Repr

/-- The JSON name of a field, from its struct tag. -/
def Field.name : Field → Bytes
  | .organisator => utf8 "organisator"
  | .event => utf8 "event"
  | .date => utf8 "date"
  | .owner => utf8 "owner"

/-- Go: `b & caseMask`, clearing bit `0x20`. -/
def caseMask (b : Nat) : Nat := if b / 32 % 2 = 1 then b - 32 else b

/-- Go: `simpleLetterEqualFold`, for a name `s` of ASCII letters without `k` or `s`. -/
def simpleLetterEqualFold : Bytes → Bytes → Bool
  | [], [] => true
  | sb :: s, tb :: t => caseMask sb = caseMask tb && simpleLetterEqualFold s t
  | _, _ => false

/-- Go: `equalFoldRight`, for an ASCII name `s` with an `s` or a `k`: ASCII case folding, and
the long s (U+017F) and the Kelvin sign (U+212A) in `t` fold to `s` and `k`. -/
def equalFoldRight : Bytes → Bytes → Bool
  | [], t => t.isEmpty
  | _ :: _, [] => false
  | sb :: s, tb :: t =>
    if tb < 0x80 then
      if sb ≠ tb then
        if 0x41 ≤ caseMask sb ∧ caseMask sb ≤ 0x5A then
          if caseMask sb ≠ caseMask tb then false else equalFoldRight s t
        else false
      else equalFoldRight s t
    else if sb = 0x73 ∨ sb = 0x53 then
      if (DecodeRune (tb :: t)).1 ≠ 0x17F then false
      else equalFoldRight s (t.drop ((DecodeRune (tb :: t)).2 - 1))
    else if sb = 0x6B ∨ sb = 0x4B then
      if (DecodeRune (tb :: t)).1 ≠ 0x212A then false
      else equalFoldRight s (t.drop ((DecodeRune (tb :: t)).2 - 1))
    else false

/-- Go: `foldFunc(name)` for the four tags: only `organisator` has an `s` or a `k`. -/
def Field.equalFold : Field → Bytes → Bytes → Bool
  | .organisator => equalFoldRight
  | _ => simpleLetterEqualFold

/-- Go: the field search of `(*decodeState).object`: an exact name match wins, otherwise the
first field that matches under case folding. -/
def findFieldLoop (key : Bytes) : List Field → Option Field → Option Field
  | [], f => f
  | ff :: rest, f =>
    if ff.name = key then some ff
    else if f = none ∧ ff.equalFold ff.name key = true then findFieldLoop key rest (some ff)
    else findFieldLoop key rest f

/-- The field of `Ticket` an object key selects, if any. -/
def findField (key : Bytes) : Option Field :=
  findFieldLoop key [Field.organisator, Field.event, Field.date, Field.owner] none

/-- Assign a string field. -/
def Ticket.set (t : Ticket) (f : Field) (v : Bytes) : Ticket :=
  match f with
  | .organisator => { t with Organisator := v }
  | .event => { t with Event := v }
  | .date => { t with Date := v }
  | .owner => { t with Owner := v }

/-- Go: one key/value of `(*decodeState).object` on a `Ticket`. The flag records a saved
`UnmarshalTypeError`. A string is stored, `null` leaves the field alone, any other value is a
type error and is skipped; a key that names no field is skipped. -/
def storeMember (acc : Ticket × Bool) (kv : Bytes × JValue) : Ticket × Bool :=
  match findField kv.1 with
  | none => acc
  | some f =>
    match kv.2 with
    | JValue.string s => (acc.1.set f s, acc.2)
    | JValue.null => acc
    | _ => (acc.1, true)

/-- Go: `json.Unmarshal(data, &ticket)`: the ticket afterwards, and whether the returned error
is non-nil.  Invalid JSON changes nothing; an object is stored member by member; `null` is a
no-op; any other value is a type error. -/
def Unmarshal (data : Bytes) (ticket : Ticket) : Ticket × Bool :=
  match parseJSON data with
  | none => (ticket, true)
  | some (JValue.object members) => members.foldl storeMember (ticket, false)
  | some JValue.null => (ticket, false)
  | some _ => (ticket, true)

/-! ## strconv -/

/-- Decimal digits of a natural number, most significant first. -/
def itoaAux : Nat → Nat → Bytes → Bytes
  | 0, _, acc => acc
  | fuel + 1, n, acc =>
    if n < 10 then (0x30 + n) :: acc else itoaAux fuel (n / 10) ((0x30 + n % 10) :: acc)

/-- Go: `strconv.Itoa(i)` for the loop index of `initLedger`, which is never negative. -/
def Itoa (i : Nat) : Bytes := itoaAux (i + 1) i []

/-! ## The host: ledger, stub, responses -/

/-- Go: `<` on strings, byte-wise lexical order. -/
def bytesLt : Bytes → Bytes → Bool
  | _, [] => false
  | [], _ :: _ => true
  | a :: s, b :: t => decide (a < b) || (decide (a = b) && bytesLt s t)

/-- Modelled from the spec: the ledger is missing from the sources; it is "the platform-managed
key-value store of committed state", a "flat key→JSON-blob map": finitely many entries, no key
twice. -/
structure Ledger where
  entries : List (Bytes × Bytes)
  nodup : (entries.map Prod.fst).Nodup

/-- Modelled from the spec: the ledger without any record. -/
def Ledger.empty : Ledger := ⟨[], List.nodup_nil⟩

/-- Modelled from the spec: get-by-key, the value stored at `key` if there is one. -/
def Ledger.get (L : Ledger) (key : Bytes) : Option Bytes :=
  (L.entries.find? (fun e => decide (e.1 = key))).map Prod.snd

/-- Modelled from the spec: put-by-key with "key overwrite semantics": afterwards `key` holds
`value` and nothing else has changed. -/
def Ledger.put (L : Ledger) (key value : Bytes) : Ledger where
  entries := (key, value) :: L.entries.filter (fun e => decide (e.1 ≠ key))
  nodup := by
    rw [List.map_cons, List.nodup_cons]
    refine ⟨?_, L.nodup.sublist ((List.filter_sublist L.entries).map Prod.fst)⟩
    intro hmem
    obtain ⟨e, he, hk⟩ := List.mem_map.mp hmem
    have hne := (List.mem_filter.mp he).2
    simp at hne
    exact hne hk

/-- Modelled from the spec: membership of a key in a scan range, "start inclusive, end
exclusive, byte-lexical order". -/
def inRange (startKey endKey key : Bytes) : Bool := !bytesLt key startKey && bytesLt key endKey

/-- Modelled from the spec: the records a range scan visits: those whose key is in range, by
ascending key. -/
def Ledger.range (L : Ledger) (startKey endKey : Bytes) : List (Bytes × Bytes) :=
  (L.entries.filter (fun e => inRange startKey endKey e.1)).insertionSort
    (fun a b => bytesLt b.1 a.1 = false)

/-- Modelled from the spec: the host stub is missing from the sources; it offers "get/put-by-key
and range-iteration primitives" on the ledger, and each of them can fail ("store read/write
errors", "range-scan iteration errors").  The failures are part of the host: `getErr key` and
`putErr key` say that a get or put of `key` fails (the store is unavailable, or the host does
not accept the key), `rangeErr` is the error of opening a range scan, `nextErr i` the error of
the `i`-th call of `Next` (counted from 0). -/
structure Stub where
  ledger : Ledger
  getErr : Bytes → Bool
  putErr : Bytes → Bool
  rangeErr : Option Bytes
  nextErr : Nat → Option Bytes

/-- Modelled from the spec: `GetState`: the stored bytes, or nil when the key is absent or
the read fails, and whether it failed. -/
def Stub.GetState (stub : Stub) (key : Bytes) : Bytes × Bool :=
  if stub.getErr key then ([], true) else ((stub.ledger.get key).getD [], false)

/-- Modelled from the spec: `PutState`: the stub afterwards, and whether the write failed; a
failed write stores nothing. -/
def Stub.PutState (stub : Stub) (key value : Bytes) : Stub × Bool :=
  if stub.putErr key then (stub, true)
  else ({ stub with ledger := stub.ledger.put key value }, false)

/-- Modelled from the spec: `GetStateByRange`: the records the iterator will deliver, or the
error of opening the scan. -/
def Stub.GetStateByRange (stub : Stub) (startKey endKey : Bytes) :
    Except Bytes (List (Bytes × Bytes)) :=
  match stub.rangeErr with
  | some err => Except.error err
  | none => Except.ok (stub.ledger.range startKey endKey)

/-- Modelled from the spec: a response is a success with a payload (`shim.Success`) or an
error with a message (`shim.Error`). -/
inductive Response where
  | Success (payload : Bytes)
  | Error (message : Bytes)
deriving DecidableEq, Repr

/-- The response is an error response. -/
def Response.isError : Response → Bool
  | .Success _ => false
  | .Error _ => true

/-! ## The smart contract -/

/-- Go: `Init`. -/
def Init (stub : Stub) : Response × Stub := (Response.Success [], stub)

/-- Go: `queryTicket`. -/
def queryTicket (stub : Stub) (args : List Bytes) : Response × Stub :=
  if args.length ≠ 1 then
    (Response.Error (utf8 "Incorrect number of arguments. Expecting 1"), stub)
  else
    let ticketAsBytes := (stub.GetState (args.getD 0 [])).1
    (Response.Success ticketAsBytes, stub)

/-- Go: the `tickets` slice of `initLedger`. -/
def tickets : List Ticket :=
  [ ⟨utf8 "MadisonSquareGarden", utf8 "Knicks-Bulls", utf8 "20180501", utf8 "Carlos"⟩,
    ⟨utf8 "MadisonSquareGarden", utf8 "Knicks-Jazz", utf8 "20180602", utf8 "Carlos"⟩,
    ⟨utf8 "MadisonSquareGarden", utf8 "Knicks-Heat", utf8 "20180404", utf8 "Emad"⟩,
    ⟨utf8 "BroadwayTheater", utf8 "BruceSpringsteen", utf8 "20180715", utf8 "Varad"⟩,
    ⟨utf8 "BroadwayTheater", utf8 "Madonna", utf8 "201805010", utf8 "Phil"⟩,
    ⟨utf8 "BroadwayTheater", utf8 "CatStevens", utf8 "20180519", utf8 "John"⟩ ]

/-- Go: the loop `for i < len(tickets)` of `initLedger`, from index `i` with `rest` the
tickets from `i` on: marshal `tickets[i]`, put it under `"Ticket" + strconv.Itoa(i)`. -/
def initLedgerLoop : Nat → List Ticket → Stub → Stub
  | _, [], stub => stub
  | i, ticket :: rest, stub =>
    let ticketAsBytes := Marshal ticket
    initLedgerLoop (i + 1) rest (stub.PutState (utf8 "Ticket" ++ Itoa i) ticketAsBytes).1

/-- Go: `initLedger`. -/
def initLedger (stub : Stub) : Response × Stub :=
  (Response.Success [], initLedgerLoop 0 tickets stub)

/-- Go: `createTicket`. -/
def createTicket (stub : Stub) (args : List Bytes) : Response × Stub :=
  if args.length ≠ 5 then
    (Response.Error (utf8 "Incorrect number of arguments. Expecting 5"), stub)
  else
    let ticket : Ticket :=
      { Organisator := args.getD 1 [], Event := args.getD 2 [], Date := args.getD 3 [],
        Owner := args.getD 4 [] }
    let ticketAsBytes := Marshal ticket
    (Response.Success [], (stub.PutState (args.getD 0 []) ticketAsBytes).1)

/-- Go: one array member written by `queryAllTickets`, with the comma before it unless it is
the first. -/
def writeMember (buffer : Bytes) (bArrayMemberAlreadyWritten : Bool) (kv : Bytes × Bytes) : Bytes :=
  (if bArrayMemberAlreadyWritten = true then buffer ++ utf8 "," else buffer)
    ++ utf8 "\x7b\"Key\":" ++ utf8 "\"" ++ kv.1 ++ utf8 "\"" ++ utf8 ", \"Record\":" ++ kv.2
    ++ utf8 "\x7d"

/-- Go: the loop `for resultsIterator.HasNext()` of `queryAllTickets`: `pending` are the
records still to come, `served` counts the calls of `Next` so far. The result is the buffer,
or the error of a failed `Next`. -/
def queryAllLoop (nextErr : Nat → Option Bytes) :
    List (Bytes × Bytes) → Nat → Bytes → Bool → Except Bytes Bytes
  | [], _, buffer, _ => Except.ok buffer
  | kv :: pending, served, buffer, bArrayMemberAlreadyWritten =>
    match nextErr served with
    | some err => Except.error err
    | none =>
      queryAllLoop nextErr pending (served + 1)
        (writeMember buffer bArrayMemberAlreadyWritten kv) true

/-- Go: `queryAllTickets`. -/
def queryAllTickets (stub : Stub) : Response × Stub :=
  let startKey := utf8 "TICKET0"
  let endKey := utf8 "TICKET999"
  match stub.GetStateByRange startKey endKey with
  | Except.error err => (Response.Error err, stub)
  | Except.ok resultsIterator =>
    match queryAllLoop stub.nextErr resultsIterator 0 (utf8 "[") false with
    | Except.error err => (Response.Error err, stub)
    | Except.ok buffer => (Response.Success (buffer ++ utf8 "]"), stub)

/-- Go: `changeTicketOwner`. -/
def changeTicketOwner (stub : Stub) (args : List Bytes) : Response × Stub :=
  if args.length ≠ 2 then
    (Response.Error (utf8 "Incorrect number of arguments. Expecting 2"), stub)
  else
    let ticketAsBytes := (stub.GetState (args.getD 0 [])).1
    let ticket : Ticket := ⟨[], [], [], []⟩
    let ticket := (Unmarshal ticketAsBytes ticket).1
    let ticket := { ticket with Owner := args.getD 1 [] }
    let ticketAsBytes := Marshal ticket
    (Response.Success [], (stub.PutState (args.getD 0 []) ticketAsBytes).1)

/-- Go: `Invoke`, on the function name and arguments of `GetFunctionAndParameters`. -/
def Invoke (stub : Stub) (function : Bytes) (args : List Bytes) : Response × Stub :=
  if function = utf8 "queryTicket" then queryTicket stub args
  else if function = utf8 "initLedger" then initLedger stub
  else if function = utf8 "createTicket" then createTicket stub args
  else if function = utf8 "queryAllTickets" then queryAllTickets stub
  else if function = utf8 "changeTicketOwner" then changeTicketOwner stub args
  else (Response.Error (utf8 "Invalid Smart Contract function name."), stub)

/-! ## Vocabulary of the properties -/

/-- Go: `Ticket{}`, the zero value. -/
def zeroTicket : Ticket := ⟨[], [], [], []⟩

/-- The bytes JSON-decode to the ticket: `json.Unmarshal` into a zero `Ticket` returns no
error and leaves exactly `t`. -/
def decodesTo (payload : Bytes) (t : Ticket) : Prop := Unmarshal payload zeroTicket = (t, false)

instance (payload : Bytes) (t : Ticket) : Decidable (decodesTo payload t) := by
  unfold decodesTo
  infer_instance

/-- The host that serves the ledger `L` and on which nothing fails. -/
def hostOf (L : Ledger) : Stub :=
  { ledger := L, getErr := fun _ => false, putErr := fun _ => false, rangeErr := none,
    nextErr := fun _ => none }

/-- The host with the empty ledger on which nothing fails. -/
def emptyStub : Stub := hostOf Ledger.empty

/-- A ledger with one record under the upper-case key "TICKET5" and one under the
mixed-case key "Ticket0". -/
def sampleLedger : Ledger :=
  (Ledger.empty.put (utf8 "Ticket0") (utf8 "\x7b\"owner\":\"Carlos\"\x7d")).put
    (utf8 "TICKET5") (utf8 "\x7b\"owner\":\"Emad\"\x7d")

/-- The ledger after `initLedger` on the empty ledger. -/
def seededLedger : Ledger := (initLedger (hostOf Ledger.empty)).2.ledger

/-- A ledger that holds under "Ticket7" an object with a number where the event should be,
under "Ticket8" a JSON array, and under "Ticket6" an object with nothing but a number as
event. -/
def oddLedger : Ledger :=
  ((Ledger.empty.put (utf8 "Ticket7") (utf8 "\x7b\"organisator\":\"A\",\"event\":5\x7d")).put
    (utf8 "Ticket8") (utf8 "[1,2]")).put (utf8 "Ticket6") (utf8 "\x7b\"event\":5\x7d")

/-- A handler rejects the number of arguments of this call. -/
def argCountMismatch (function : Bytes) (args : List Bytes) : Prop :=
  (function = utf8 "queryTicket" ∧ args.length ≠ 1) ∨
  (function = utf8 "createTicket" ∧ args.length ≠ 5) ∨
  (function = utf8 "changeTicketOwner" ∧ args.length ≠ 2)

/-- The range scan of `queryAllTickets` fails on this host: opening it fails, or one of the
calls of `Next` for the records in range does. -/
def rangeScanFails (stub : Stub) : Prop :=
  stub.rangeErr ≠ none ∨
  ∃ i, i < (stub.ledger.range (utf8 "TICKET0") (utf8 "TICKET999")).length ∧ stub.nextErr i ≠ none

/-- The function name is one of the five the dispatcher knows. -/
def knownFunction (function : Bytes) : Prop :=
  function = utf8 "queryTicket" ∨ function = utf8 "initLedger" ∨ function = utf8 "createTicket" ∨
  function = utf8 "queryAllTickets" ∨ function = utf8 "changeTicketOwner"

/-- The text of one array member of the `queryAllTickets` payload. -/
def memberJSON (kv : Bytes × Bytes) : Bytes :=
  utf8 "\x7b\"Key\":\"" ++ kv.1 ++ utf8 "\", \"Record\":" ++ kv.2 ++ utf8 "\x7d"

/-- The keys `initLedger` writes, in the order of the tickets. -/
def seedKeys : List Bytes :=
  [utf8 "Ticket0", utf8 "Ticket1", utf8 "Ticket2", utf8 "Ticket3", utf8 "Ticket4",
   utf8 "Ticket5"]

/-- A call that writes records: `initLedger`, or `createTicket` with its arguments. -/
inductive SeedCall where
  | initLedger
  | createTicket (args : List Bytes)

/-- The stub after the call. -/
def SeedCall.run (stub : Stub) : SeedCall → Stub
  | .initLedger => (TestNetwork.initLedger stub).2
  | .createTicket args => (TestNetwork.createTicket stub args).2

/-- The key of a `createTicket` call begins with "Ticket". -/
def SeedCall.ticketKeyed : SeedCall → Prop
  | .initLedger => True
  | .createTicket args => utf8 "Ticket" <+: args.getD 0 []

/-- Every key of the ledger begins with "Ticket". -/
def ticketKeysOnly (stub : Stub) : Prop := ∀ e ∈ stub.ledger.entries, utf8 "Ticket" <+: e.1

/-- What a successful multi-byte decoding step guarantees. -/
def GoodStep (b : Nat) (rest : Bytes) : Prop :=
  2 ≤ (DecodeRune (b :: rest)).2 ∧ (DecodeRune (b :: rest)).2 ≤ rest.length + 1 ∧
  EncodeRune (DecodeRune (b :: rest)).1 = b :: rest.take ((DecodeRune (b :: rest)).2 - 1) ∧
  (∀ X : Bytes, DecodeRune (b :: (rest.take ((DecodeRune (b :: rest)).2 - 1) ++ X))
    = DecodeRune (b :: rest)) ∧
  0x80 ≤ (DecodeRune (b :: rest)).1 ∧
  ¬ (0xD800 ≤ (DecodeRune (b :: rest)).1 ∧ (DecodeRune (b :: rest)).1 < 0xE000)

/-- Go: what an encoded string decodes to: the string "coerced to valid UTF-8, replacing
invalid bytes with the Unicode replacement rune" (`encoding/json`); valid runes are kept, each
invalid byte becomes U+FFFD.  The fuel is the number of bytes left. -/
def coerceAux : Nat → Bytes → Bytes
  | 0, _ => []
  | _ + 1, [] => []
  | fuel + 1, b :: rest =>
    if (DecodeRune (b :: rest)).1 = RuneError ∧ (DecodeRune (b :: rest)).2 = 1 then
      EncodeRune RuneError ++ coerceAux fuel rest
    else
      b :: rest.take ((DecodeRune (b :: rest)).2 - 1)
        ++ coerceAux fuel (rest.drop ((DecodeRune (b :: rest)).2 - 1))

/-- The string coerced to valid UTF-8. -/
def coerceUTF8 (s : Bytes) : Bytes := coerceAux s.length s

/-- The number of elements of the payload read as a JSON array, or `none` when the payload is
not a JSON array. -/
def jsonArrayLength (payload : Bytes) : Option Nat :=
  match parseJSON payload with
  | some (JValue.array elems) => some elems.length
  | _ => none

/-- A ledger with the single record `t`, JSON-encoded, under "Ticket9". -/
def ledgerWith (t : Ticket) : Ledger := Ledger.empty.put (utf8 "Ticket9") (Marshal t)

/-- A key in the scan range that holds double quotes and braces. -/
def quoteKey : Bytes := utf8 "TICKET1\"\x7d,\x7b\"Key\":\"x"

/-- A key in the scan range that holds one double quote. -/
def brokenKey : Bytes := utf8 "TICKET1\"x"

/-- The host after `createTicket` under `key` on the empty ledger. -/
def createdUnder (key : Bytes) : Stub :=
  (createTicket (hostOf Ledger.empty) [key, utf8 "a", utf8 "b", utf8 "c", utf8 "d"]).2

/-- All four fields are valid UTF-8. -/
def Ticket.Valid (t : Ticket) : Prop :=
  ValidString t.Organisator = true ∧ ValidString t.Event = true ∧
  ValidString t.Date = true ∧ ValidString t.Owner = true

/-! ## The range scan loop -/

theorem intercalate_cons (sep x : Bytes) (xs : List Bytes) :
    List.intercalate sep (x :: xs) = x ++ (xs.map (fun y => sep ++ y)).flatten := by
  induction xs generalizing x with
  | nil => simp [List.intercalate]
  | cons y ys ih =>
    have h := ih y
    simp only [List.intercalate, List.intersperse, List.flatten] at h ⊢
    simp [h]

theorem writeMember_eq (buffer : Bytes) (w : Bool) (kv : Bytes × Bytes) :
    writeMember buffer w kv
      = buffer ++ ((if w = true then utf8 "," else []) ++ memberJSON kv) := by
  unfold writeMember memberJSON
  have h1 : utf8 "\x7b\"Key\":" ++ utf8 "\"" = utf8 "\x7b\"Key\":\"" := by decide
  have h2 : utf8 "\"" ++ utf8 ", \"Record\":" = utf8 "\", \"Record\":" := by decide
  cases w <;> simp only [List.append_assoc, ← h1, ← h2] <;> simp

theorem queryAllLoop_ok (nextErr : Nat → Option Bytes) (pending : List (Bytes × Bytes)) :
    ∀ (served : Nat) (buffer : Bytes),
      (∀ i, i < pending.length → nextErr (served + i) = none) →
      queryAllLoop nextErr pending served buffer true
        = Except.ok (buffer ++ (pending.map (fun kv => utf8 "," ++ memberJSON kv)).flatten) := by
  induction pending with
  | nil => intro served buffer _; simp [queryAllLoop]
  | cons kv rest ih =>
    intro served buffer h
    have h0 : nextErr served = none := by simpa using h 0 (by simp)
    have hrest : ∀ i, i < rest.length → nextErr (served + 1 + i) = none := by
      intro i hi
      have := h (i + 1) (by simp; omega)
      rwa [show served + (i + 1) = served + 1 + i by omega] at this
    simp only [queryAllLoop, h0]
    rw [ih (served + 1) _ hrest, writeMember_eq]
    simp

theorem queryAllLoop_first (nextErr : Nat → Option Bytes) (pending : List (Bytes × Bytes))
    (buffer : Bytes) (h : ∀ i, i < pending.length → nextErr i = none) :
    queryAllLoop nextErr pending 0 buffer false
      = Except.ok (buffer ++ List.intercalate (utf8 ",") (pending.map memberJSON)) := by
  cases pending with
  | nil => simp [queryAllLoop, List.intercalate]
  | cons kv rest =>
    have h0 : nextErr 0 = none := h 0 (by simp)
    have hrest : ∀ i, i < rest.length → nextErr (0 + 1 + i) = none := by
      intro i hi
      have := h (i + 1) (by simp; omega)
      rwa [show i + 1 = 0 + 1 + i by omega] at this
    simp only [queryAllLoop, h0]
    rw [queryAllLoop_ok nextErr rest (0 + 1) _ hrest, writeMember_eq, List.map_cons,
      intercalate_cons, List.map_map]
    simp [Function.comp_def]

theorem queryAllLoop_error (nextErr : Nat → Option Bytes) (pending : List (Bytes × Bytes)) :
    ∀ (served : Nat) (buffer : Bytes) (w : Bool),
      (∃ i, i < pending.length ∧ nextErr (served + i) ≠ none) →
      ∃ err, queryAllLoop nextErr pending served buffer w = Except.error err := by
  induction pending with
  | nil => intro served buffer w ⟨i, hi, _⟩; simp at hi
  | cons kv rest ih =>
    intro served buffer w ⟨i, hi, hne⟩
    cases h0 : nextErr served with
    | some err => exact ⟨err, by simp [queryAllLoop, h0]⟩
    | none =>
      simp only [queryAllLoop, h0]
      apply ih
      cases i with
      | zero => simp [h0] at hne
      | succ j =>
        refine ⟨j, by simpa using hi, ?_⟩
        rwa [show served + 1 + j = served + (j + 1) by omega]

/-! ## The ledger -/

theorem Ledger.get_put_same (L : Ledger) (key value : Bytes) :
    (L.put key value).get key = some value := by
  simp [Ledger.get, Ledger.put]

theorem find_filter_ne (es : List (Bytes × Bytes)) (key k : Bytes) (h : k ≠ key) :
    (es.filter (fun e => decide (e.1 ≠ key))).find? (fun e => decide (e.1 = k))
      = es.find? (fun e => decide (e.1 = k)) := by
  induction es with
  | nil => rfl
  | cons e rest ih =>
    by_cases hkey : e.1 = key
    · have hk : ¬ e.1 = k := fun hk => h (hk.symm.trans hkey)
      have h1 : decide (e.1 ≠ key) = false := by simpa using hkey
      have h2 : decide (e.1 = k) = false := by simpa using hk
      rw [List.filter_cons, h1, List.find?_cons, h2]
      simpa using ih
    · have h1 : decide (e.1 ≠ key) = true := by simpa using hkey
      rw [List.filter_cons, h1]
      simp only [if_true, List.find?_cons]
      rw [ih]

theorem Ledger.get_put_ne (L : Ledger) (key value k : Bytes) (h : k ≠ key) :
    (L.put key value).get k = L.get k := by
  simp only [Ledger.get, Ledger.put]
  rw [List.find?_cons]
  have : decide (key = k) = false := by simpa using Ne.symm h
  simp only [this]
  rw [find_filter_ne _ _ _ h]

theorem find_of_mem_nodup (es : List (Bytes × Bytes)) (h : (es.map Prod.fst).Nodup)
    (k v : Bytes) :
    (k, v) ∈ es ↔ (es.find? (fun e => decide (e.1 = k))).map Prod.snd = some v := by
  induction es with
  | nil => simp
  | cons e rest ih =>
    rw [List.map_cons, List.nodup_cons] at h
    by_cases hk : e.1 = k
    · simp only [List.find?_cons, hk, decide_True, Option.map_some', Option.some.injEq,
        List.mem_cons]
      constructor
      · rintro (heq | hmem)
        · rw [← heq]
        · exfalso
          apply h.1
          rw [hk]
          exact List.mem_map.mpr ⟨(k, v), hmem, rfl⟩
      · intro hv
        left
        rw [← hv, ← hk]
    · have : decide (e.1 = k) = false := by simpa using hk
      simp only [List.find?_cons, this, List.mem_cons]
      rw [← ih h.2]
      constructor
      · rintro (heq | hmem)
        · exfalso; apply hk; rw [← heq]
        · exact hmem
      · intro hmem; exact Or.inr hmem

theorem Ledger.mem_range (L : Ledger) (startKey endKey k v : Bytes) :
    (k, v) ∈ L.range startKey endKey ↔ L.get k = some v ∧ inRange startKey endKey k = true := by
  unfold Ledger.range Ledger.get
  rw [(List.perm_insertionSort _ _).mem_iff, List.mem_filter, find_of_mem_nodup _ L.nodup]

theorem Ledger.nodup_range (L : Ledger) (startKey endKey : Bytes) :
    ((L.range startKey endKey).map Prod.fst).Nodup := by
  unfold Ledger.range
  have hp := (List.perm_insertionSort (fun a b : Bytes × Bytes => bytesLt b.1 a.1 = false)
    (L.entries.filter (fun e => inRange startKey endKey e.1))).map Prod.fst
  rw [hp.nodup_iff]
  exact L.nodup.sublist ((List.filter_sublist L.entries).map Prod.fst)

/-! ## Error responses -/

theorem queryTicket_isError (stub : Stub) (args : List Bytes) :
    (queryTicket stub args).1.isError = true ↔ args.length ≠ 1 := by
  unfold queryTicket; split <;> simp_all [Response.isError]

theorem createTicket_isError (stub : Stub) (args : List Bytes) :
    (createTicket stub args).1.isError = true ↔ args.length ≠ 5 := by
  unfold createTicket; split <;> simp_all [Response.isError]

theorem changeTicketOwner_isError (stub : Stub) (args : List Bytes) :
    (changeTicketOwner stub args).1.isError = true ↔ args.length ≠ 2 := by
  unfold changeTicketOwner; split <;> simp_all [Response.isError]

theorem queryAllTickets_of_ok (stub : Stub) (h : ¬ rangeScanFails stub) :
    queryAllTickets stub
      = (Response.Success (utf8 "[" ++ List.intercalate (utf8 ",")
          ((stub.ledger.range (utf8 "TICKET0") (utf8 "TICKET999")).map memberJSON) ++ utf8 "]"),
         stub) := by
  unfold rangeScanFails at h
  simp only [not_or, not_exists, not_and, ne_eq, not_not] at h
  unfold queryAllTickets Stub.GetStateByRange
  simp only [h.1]
  rw [queryAllLoop_first _ _ _ h.2]

theorem queryAllTickets_of_fails (stub : Stub) (h : rangeScanFails stub) :
    (queryAllTickets stub).1.isError = true := by
  unfold queryAllTickets Stub.GetStateByRange
  cases hr : stub.rangeErr with
  | some err => simp [Response.isError]
  | none =>
    rcases h with h | ⟨i, hi, hne⟩
    · exact absurd hr h
    · obtain ⟨err, herr⟩ := queryAllLoop_error stub.nextErr
        (stub.ledger.range (utf8 "TICKET0") (utf8 "TICKET999")) 0 (utf8 "[") false
        ⟨i, hi, by simpa using hne⟩
      simp only [herr, Response.isError]

theorem queryAllTickets_isError (stub : Stub) :
    (queryAllTickets stub).1.isError = true ↔ rangeScanFails stub := by
  constructor
  · intro h
    by_contra hno
    rw [queryAllTickets_of_ok stub hno] at h
    simp [Response.isError] at h
  · exact queryAllTickets_of_fails stub

/-! ## Keys that begin with "Ticket" -/

theorem ticket_prefix_not_inRange (key : Bytes) (h : utf8 "Ticket" <+: key) :
    inRange (utf8 "TICKET0") (utf8 "TICKET999") key = false := by
  obtain ⟨rest, rfl⟩ := h
  have h1 : utf8 "Ticket" = [84, 105, 99, 107, 101, 116] := by decide
  have h2 : utf8 "TICKET999" = [84, 73, 67, 75, 69, 84, 57, 57, 57] := by decide
  simp [inRange, h1, h2, bytesLt]

theorem PutState_ticketKeysOnly (stub : Stub) (key value : Bytes)
    (hk : utf8 "Ticket" <+: key) (h : ticketKeysOnly stub) :
    ticketKeysOnly (stub.PutState key value).1 := by
  unfold Stub.PutState
  split
  · exact h
  · intro e he
    simp only [Ledger.put, List.mem_cons] at he
    rcases he with rfl | he
    · exact hk
    · exact h e (List.mem_filter.mp he).1

theorem PutState_rangeErr (stub : Stub) (key value : Bytes) :
    (stub.PutState key value).1.rangeErr = stub.rangeErr := by
  unfold Stub.PutState
  split <;> rfl

theorem initLedgerLoop_ticketKeysOnly (ts : List Ticket) :
    ∀ (i : Nat) (stub : Stub), ticketKeysOnly stub →
      ticketKeysOnly (initLedgerLoop i ts stub) := by
  induction ts with
  | nil => intro i stub h; exact h
  | cons t rest ih =>
    intro i stub h
    exact ih (i + 1) _ (PutState_ticketKeysOnly stub _ _ (List.prefix_append _ _) h)

theorem initLedgerLoop_rangeErr (ts : List Ticket) :
    ∀ (i : Nat) (stub : Stub), (initLedgerLoop i ts stub).rangeErr = stub.rangeErr := by
  induction ts with
  | nil => intro i stub; rfl
  | cons t rest ih =>
    intro i stub
    simp only [initLedgerLoop]
    rw [ih, PutState_rangeErr]

theorem run_ticketKeysOnly (stub : Stub) (c : SeedCall) (hc : c.ticketKeyed)
    (h : ticketKeysOnly stub) : ticketKeysOnly (SeedCall.run stub c) := by
  cases c with
  | initLedger => exact initLedgerLoop_ticketKeysOnly _ _ _ h
  | createTicket args =>
    simp only [SeedCall.run, createTicket]
    split
    · exact h
    · exact PutState_ticketKeysOnly stub _ _ hc h

theorem run_rangeErr (stub : Stub) (c : SeedCall) :
    (SeedCall.run stub c).rangeErr = stub.rangeErr := by
  cases c with
  | initLedger => exact initLedgerLoop_rangeErr _ _ _
  | createTicket args =>
    simp only [SeedCall.run, createTicket]
    split
    · rfl
    · exact PutState_rangeErr _ _ _

theorem foldl_run_invariant (calls : List SeedCall) :
    ∀ (stub : Stub), (∀ c ∈ calls, c.ticketKeyed) → ticketKeysOnly stub →
      ticketKeysOnly (calls.foldl SeedCall.run stub) ∧
      (calls.foldl SeedCall.run stub).rangeErr = stub.rangeErr := by
  induction calls with
  | nil => intro stub _ h; exact ⟨h, rfl⟩
  | cons c rest ih =>
    intro stub hc h
    have hrest := ih (SeedCall.run stub c) (fun c' hc' => hc c' (List.mem_cons_of_mem _ hc'))
      (run_ticketKeysOnly stub c (hc c (List.mem_cons_self _ _)) h)
    exact ⟨hrest.1, hrest.2.trans (run_rangeErr stub c)⟩

theorem range_empty_of_ticketKeysOnly (stub : Stub) (h : ticketKeysOnly stub) :
    stub.ledger.range (utf8 "TICKET0") (utf8 "TICKET999") = [] := by
  unfold Ledger.range
  have : stub.ledger.entries.filter
      (fun e => inRange (utf8 "TICKET0") (utf8 "TICKET999") e.1) = [] := by
    rw [List.filter_eq_nil_iff]
    intro e he
    rw [ticket_prefix_not_inRange e.1 (h e he)]
    simp
  rw [this]
  rfl

/-! ## Seeding -/

theorem PutState_of_ok (stub : Stub) (key value : Bytes) (h : stub.putErr key = false) :
    (stub.PutState key value).1 = { stub with ledger := stub.ledger.put key value } := by
  simp [Stub.PutState, h]

theorem seed_key_names :
    utf8 "Ticket" ++ Itoa 0 = utf8 "Ticket0" ∧ utf8 "Ticket" ++ Itoa 1 = utf8 "Ticket1" ∧
    utf8 "Ticket" ++ Itoa 2 = utf8 "Ticket2" ∧ utf8 "Ticket" ++ Itoa 3 = utf8 "Ticket3" ∧
    utf8 "Ticket" ++ Itoa 4 = utf8 "Ticket4" ∧ utf8 "Ticket" ++ Itoa 5 = utf8 "Ticket5" := by
  decide

theorem initLedger_ledger (stub : Stub) (hput : ∀ k ∈ seedKeys, stub.putErr k = false) :
    (initLedger stub).2 =
      { stub with ledger :=
          ((((((stub.ledger.put (utf8 "Ticket0") (Marshal (tickets.getD 0 zeroTicket))).put
            (utf8 "Ticket1") (Marshal (tickets.getD 1 zeroTicket))).put
            (utf8 "Ticket2") (Marshal (tickets.getD 2 zeroTicket))).put
            (utf8 "Ticket3") (Marshal (tickets.getD 3 zeroTicket))).put
            (utf8 "Ticket4") (Marshal (tickets.getD 4 zeroTicket))).put
            (utf8 "Ticket5") (Marshal (tickets.getD 5 zeroTicket))) } := by
  have h0 := hput (utf8 "Ticket0") (by simp [seedKeys])
  have h1 := hput (utf8 "Ticket1") (by simp [seedKeys])
  have h2 := hput (utf8 "Ticket2") (by simp [seedKeys])
  have h3 := hput (utf8 "Ticket3") (by simp [seedKeys])
  have h4 := hput (utf8 "Ticket4") (by simp [seedKeys])
  have h5 := hput (utf8 "Ticket5") (by simp [seedKeys])
  obtain ⟨n0, n1, n2, n3, n4, n5⟩ := seed_key_names
  simp only [initLedger, tickets, initLedgerLoop, Nat.zero_add, Nat.reduceAdd, n0, n1, n2, n3,
    n4, n5, List.getD_cons_zero, List.getD_cons_succ]
  simp [Stub.PutState, h0, h1, h2, h3, h4, h5]

theorem seeded_tickets_decode : ∀ t ∈ tickets, decodesTo (Marshal t) t := by
  decide

/-! ## UTF-8: decoding then encoding a valid rune -/

theorem DecodeRune_two (b : Nat) (rest : Bytes) (h1 : 0xC2 ≤ b) (h2 : b < 0xE0) :
    DecodeRune (b :: rest) =
      match rest with
      | [] => (RuneError, 1)
      | s1 :: _ => if s1 < 0x80 ∨ 0xBF < s1 then (RuneError, 1) else (b % 32 * 64 + s1 % 64, 2) := by
  have a1 : ¬ b < 0x80 := by omega
  have a2 : ¬ (b < 0xC2 ∨ 0xF4 < b) := by omega
  have a3 : b ≠ 0xE0 := by omega
  have a4 : b ≠ 0xF0 := by omega
  have a5 : b ≠ 0xED := by omega
  have a6 : b ≠ 0xF4 := by omega
  cases rest with
  | nil => simp [DecodeRune, a1, a2, h2]
  | cons s1 t => simp [DecodeRune, a1, a2, h2, a3, a4, a5, a6]

theorem DecodeRune_three (b : Nat) (rest : Bytes) (h1 : 0xE0 ≤ b) (h2 : b < 0xF0) :
    DecodeRune (b :: rest) =
      match rest with
      | s1 :: s2 :: _ =>
        if s1 < (if b = 0xE0 then 0xA0 else 0x80) ∨ (if b = 0xED then 0x9F else 0xBF) < s1 then
          (RuneError, 1)
        else if s2 < 0x80 ∨ 0xBF < s2 then (RuneError, 1)
        else (b % 16 * 4096 + s1 % 64 * 64 + s2 % 64, 3)
      | _ => (RuneError, 1) := by
  have a1 : ¬ b < 0x80 := by omega
  have a2 : ¬ (b < 0xC2 ∨ 0xF4 < b) := by omega
  have a3 : ¬ b < 0xE0 := by omega
  have a4 : b ≠ 0xF0 := by omega
  have a6 : b ≠ 0xF4 := by omega
  rcases rest with _ | ⟨s1, _ | ⟨s2, t⟩⟩
  · simp [DecodeRune, a1, a2, a3, h2]
  · simp [DecodeRune, a1, a2, a3, h2]
  · simp [DecodeRune, a1, a2, a3, h2, a4, a6]

theorem DecodeRune_four (b : Nat) (rest : Bytes) (h1 : 0xF0 ≤ b) (h2 : b ≤ 0xF4) :
    DecodeRune (b :: rest) =
      match rest with
      | s1 :: s2 :: s3 :: _ =>
        if s1 < (if b = 0xF0 then 0x90 else 0x80) ∨ (if b = 0xF4 then 0x8F else 0xBF) < s1 then
          (RuneError, 1)
        else if s2 < 0x80 ∨ 0xBF < s2 then (RuneError, 1)
        else if s3 < 0x80 ∨ 0xBF < s3 then (RuneError, 1)
        else (b % 8 * 262144 + s1 % 64 * 4096 + s2 % 64 * 64 + s3 % 64, 4)
      | _ => (RuneError, 1) := by
  have a1 : ¬ b < 0x80 := by omega
  have a2 : ¬ (b < 0xC2 ∨ 0xF4 < b) := by omega
  have a3 : ¬ b < 0xE0 := by omega
  have a3' : ¬ b < 0xF0 := by omega
  have a4 : b ≠ 0xE0 := by omega
  have a6 : b ≠ 0xED := by omega
  rcases rest with _ | ⟨s1, _ | ⟨s2, _ | ⟨s3, t⟩⟩⟩
  · simp [DecodeRune, a1, a2, a3, a3']
  · simp [DecodeRune, a1, a2, a3, a3']
  · simp [DecodeRune, a1, a2, a3, a3']
  · simp [DecodeRune, a1, a2, a3, a3', a4, a6]

theorem goodStep_two (b : Nat) (rest : Bytes) (h1 : 0xC2 ≤ b) (h2 : b < 0xE0)
    (hv : ¬ ((DecodeRune (b :: rest)).1 = RuneError ∧ (DecodeRune (b :: rest)).2 = 1)) :
    GoodStep b rest := by
  unfold GoodStep
  rcases rest with _ | ⟨s1, t⟩
  · rw [DecodeRune_two b _ h1 h2] at hv
    simp at hv
  · have key : ∀ t' : Bytes, DecodeRune (b :: s1 :: t')
        = if s1 < 0x80 ∨ 0xBF < s1 then (RuneError, 1) else (b % 32 * 64 + s1 % 64, 2) := by
      intro t'; rw [DecodeRune_two b _ h1 h2]
    rw [key t] at hv ⊢
    by_cases hs : s1 < 0x80 ∨ 0xBF < s1
    · simp [hs] at hv
    · simp only [hs, if_false]
      refine ⟨by omega, by simp, ?_, ?_, by omega, by omega⟩
      · unfold EncodeRune
        rw [if_neg (by omega), if_pos (by omega)]
        simp only [Nat.add_sub_cancel, List.take_succ_cons, List.take_zero, List.cons.injEq,
          and_true]
        omega
      · intro X
        simp only [Nat.add_sub_cancel, List.take_succ_cons, List.take_zero, List.cons_append,
          List.nil_append]
        rw [key, if_neg hs]

theorem goodStep_three (b : Nat) (rest : Bytes) (h1 : 0xE0 ≤ b) (h2 : b < 0xF0)
    (hv : ¬ ((DecodeRune (b :: rest)).1 = RuneError ∧ (DecodeRune (b :: rest)).2 = 1)) :
    GoodStep b rest := by
  unfold GoodStep
  rcases rest with _ | ⟨s1, _ | ⟨s2, t⟩⟩
  · rw [DecodeRune_three b _ h1 h2] at hv
    simp at hv
  · rw [DecodeRune_three b _ h1 h2] at hv
    simp at hv
  · have key : ∀ t' : Bytes, DecodeRune (b :: s1 :: s2 :: t')
        = if s1 < (if b = 0xE0 then 0xA0 else 0x80) ∨ (if b = 0xED then 0x9F else 0xBF) < s1
          then (RuneError, 1)
          else if s2 < 0x80 ∨ 0xBF < s2 then (RuneError, 1)
          else (b % 16 * 4096 + s1 % 64 * 64 + s2 % 64, 3) := by
      intro t'; rw [DecodeRune_three b _ h1 h2]
    rw [key t] at hv ⊢
    by_cases hs : s1 < (if b = 0xE0 then 0xA0 else 0x80) ∨ (if b = 0xED then 0x9F else 0xBF) < s1
    · simp [hs] at hv
    · by_cases hs2 : s2 < 0x80 ∨ 0xBF < s2
      · simp [hs, hs2] at hv
      · simp only [hs, hs2, if_false]
        have hlo : (if b = 0xE0 then 0xA0 else 0x80) ≤ s1 := by omega
        have hhi : s1 ≤ (if b = 0xED then 0x9F else 0xBF) := by omega
        have hlo' : b = 0xE0 → 0xA0 ≤ s1 := by intro hb; simpa [hb] using hlo
        have hlo'' : 0x80 ≤ s1 := by split at hlo <;> omega
        have hhi' : b = 0xED → s1 ≤ 0x9F := by intro hb; simpa [hb] using hhi
        have hhi'' : s1 ≤ 0xBF := by split at hhi <;> omega
        refine ⟨by omega, by simp, ?_, ?_, by omega, by omega⟩
        · unfold EncodeRune
          rw [if_neg (by omega), if_neg (by omega), if_neg (by omega), if_pos (by omega)]
          simp only [Nat.add_sub_cancel, List.take_succ_cons, List.take_zero, List.cons.injEq,
            and_true]
          omega
        · intro X
          simp only [Nat.add_sub_cancel, List.take_succ_cons, List.take_zero, List.cons_append,
            List.nil_append]
          rw [key, if_neg hs, if_neg hs2]

theorem goodStep_four (b : Nat) (rest : Bytes) (h1 : 0xF0 ≤ b) (h2 : b ≤ 0xF4)
    (hv : ¬ ((DecodeRune (b :: rest)).1 = RuneError ∧ (DecodeRune (b :: rest)).2 = 1)) :
    GoodStep b rest := by
  unfold GoodStep
  rcases rest with _ | ⟨s1, _ | ⟨s2, _ | ⟨s3, t⟩⟩⟩
  · rw [DecodeRune_four b _ h1 h2] at hv
    simp at hv
  · rw [DecodeRune_four b _ h1 h2] at hv
    simp at hv
  · rw [DecodeRune_four b _ h1 h2] at hv
    simp at hv
  · have key : ∀ t' : Bytes, DecodeRune (b :: s1 :: s2 :: s3 :: t')
        = if s1 < (if b = 0xF0 then 0x90 else 0x80) ∨ (if b = 0xF4 then 0x8F else 0xBF) < s1
          then (RuneError, 1)
          else if s2 < 0x80 ∨ 0xBF < s2 then (RuneError, 1)
          else if s3 < 0x80 ∨ 0xBF < s3 then (RuneError, 1)
          else (b % 8 * 262144 + s1 % 64 * 4096 + s2 % 64 * 64 + s3 % 64, 4) := by
      intro t'; rw [DecodeRune_four b _ h1 h2]
    rw [key t] at hv ⊢
    by_cases hs : s1 < (if b = 0xF0 then 0x90 else 0x80) ∨ (if b = 0xF4 then 0x8F else 0xBF) < s1
    · simp [hs] at hv
    · by_cases hs2 : s2 < 0x80 ∨ 0xBF < s2
      · simp [hs, hs2] at hv
      · by_cases hs3 : s3 < 0x80 ∨ 0xBF < s3
        · simp [hs, hs2, hs3] at hv
        · simp only [hs, hs2, hs3, if_false]
          have hlo : (if b = 0xF0 then 0x90 else 0x80) ≤ s1 := by omega
          have hhi : s1 ≤ (if b = 0xF4 then 0x8F else 0xBF) := by omega
          have hlo' : b = 0xF0 → 0x90 ≤ s1 := by intro hb; simpa [hb] using hlo
          have hlo'' : 0x80 ≤ s1 := by split at hlo <;> omega
          have hhi' : b = 0xF4 → s1 ≤ 0x8F := by intro hb; simpa [hb] using hhi
          have hhi'' : s1 ≤ 0xBF := by split at hhi <;> omega
          refine ⟨by omega, by simp, ?_, ?_, by omega, by omega⟩
          · unfold EncodeRune
            rw [if_neg (by omega), if_neg (by omega), if_neg (by omega), if_neg (by omega)]
            simp only [Nat.add_sub_cancel, List.take_succ_cons, List.take_zero, List.cons.injEq,
              and_true]
            omega
          · intro X
            simp only [Nat.add_sub_cancel, List.take_succ_cons, List.take_zero,
              List.cons_append, List.nil_append]
            rw [key, if_neg hs, if_neg hs2, if_neg hs3]

theorem goodStep (b : Nat) (rest : Bytes) (hb : ¬ b < 0x80)
    (hv : ¬ ((DecodeRune (b :: rest)).1 = RuneError ∧ (DecodeRune (b :: rest)).2 = 1)) :
    GoodStep b rest := by
  by_cases hx : b < 0xC2 ∨ 0xF4 < b
  · exfalso
    apply hv
    simp [DecodeRune, hb, hx]
  · by_cases h2 : b < 0xE0
    · exact goodStep_two b rest (by omega) h2 hv
    · by_cases h3 : b < 0xF0
      · exact goodStep_three b rest (by omega) h3 hv
      · exact goodStep_four b rest (by omega) (by omega) hv

/-! ## JSON: decoding an encoded string -/

theorem unhex_hex : ∀ x, x < 16 → unhex (hex x) = some x := by decide

theorem getu4_low (x y : Nat) (hx : x < 16) (hy : y < 16) (Z : Bytes) :
    getu4 (0x5C :: 0x75 :: 0x30 :: 0x30 :: hex x :: hex y :: Z) = some (x * 16 + y) := by
  have h0 : unhex 0x30 = some 0 := by decide
  simp only [getu4, and_self, if_true, h0, unhex_hex x hx, unhex_hex y hy]
  simp

theorem getu4_202 (y : Nat) (hy : y < 16) (Z : Bytes) :
    getu4 (0x5C :: 0x75 :: 0x32 :: 0x30 :: 0x32 :: hex y :: Z) = some (0x2020 + y) := by
  have h0 : unhex 0x30 = some 0 := by decide
  have h2 : unhex 0x32 = some 2 := by decide
  simp only [getu4, and_self, if_true, h0, h2, unhex_hex y hy]

theorem DecodeRune_ascii (b : Nat) (rest : Bytes) (h : b < 0x80) :
    DecodeRune (b :: rest) = (b, 1) := by
  simp [DecodeRune, h]

theorem unquoteAux_ascii (g : Nat) (c : Nat) (r : Bytes) (h : htmlSafeSet c = true) :
    unquoteAux (g + 1) (c :: r) = (unquoteAux g r).map (fun p => (c :: p.1, p.2)) := by
  simp only [htmlSafeSet, decide_eq_true_eq] at h
  cases r with
  | nil =>
    rw [unquoteAux.eq_3, if_neg (by omega), if_neg (by omega), if_neg (by omega),
      if_pos (by omega)]
  | cons e r1 =>
    rw [unquoteAux.eq_4, if_neg (by omega), if_neg (by omega), if_neg (by omega),
      if_pos (by omega)]

theorem unquoteAux_escape (g : Nat) (e x : Nat) (r : Bytes) (he : e ≠ 0x75)
    (hx : unescape e = some x) :
    unquoteAux (g + 1) (0x5C :: e :: r) = (unquoteAux g r).map (fun p => (x :: p.1, p.2)) := by
  rw [unquoteAux.eq_4, if_neg (by omega), if_neg (by omega), if_pos rfl, if_neg he]
  simp only [hx]

theorem unquoteAux_u (g : Nat) (rr : Nat) (h1 h2 h3 h4 : Nat) (r : Bytes)
    (hu : getu4 (0x5C :: 0x75 :: h1 :: h2 :: h3 :: h4 :: r) = some rr)
    (hs : ¬ (0xD800 ≤ rr ∧ rr < 0xE000)) :
    unquoteAux (g + 1) (0x5C :: 0x75 :: h1 :: h2 :: h3 :: h4 :: r)
      = (unquoteAux g r).map (fun p => (EncodeRune rr ++ p.1, p.2)) := by
  rw [unquoteAux.eq_4, if_neg (by omega), if_neg (by omega), if_pos rfl, if_pos rfl]
  simp only [hu]
  rw [if_neg hs]
  rfl

theorem unquoteAux_rune (g : Nat) (c : Nat) (r : Bytes) (hc : ¬ c < 0x80) :
    unquoteAux (g + 1) (c :: r)
      = (unquoteAux g (r.drop ((DecodeRune (c :: r)).2 - 1))).map
          (fun p => (EncodeRune (DecodeRune (c :: r)).1 ++ p.1, p.2)) := by
  cases r with
  | nil =>
    rw [unquoteAux.eq_3, if_neg (by omega), if_neg (by omega), if_neg (by omega), if_neg hc]
  | cons e r1 =>
    rw [unquoteAux.eq_4, if_neg (by omega), if_neg (by omega), if_neg (by omega), if_neg hc]

theorem unquoteAux_quote (g : Nat) (r : Bytes) :
    unquoteAux (g + 1) (0x22 :: r) = some ([], r) := by
  cases r with
  | nil => rw [unquoteAux.eq_3, if_pos rfl]
  | cons e r1 => rw [unquoteAux.eq_4, if_pos rfl]

theorem getu4_fffd (Z : Bytes) :
    getu4 (0x5C :: 0x75 :: 0x66 :: 0x66 :: 0x66 :: 0x64 :: Z) = some 0xFFFD := by
  have hf : unhex 0x66 = some 15 := by decide
  have hd : unhex 0x64 = some 13 := by decide
  simp only [getu4, and_self, if_true, hf, hd]

theorem coerceAux_ascii (f b : Nat) (rest : Bytes) (hb : b < 0x80) :
    coerceAux (f + 1) (b :: rest) = b :: coerceAux f rest := by
  have hne : ¬ ((DecodeRune (b :: rest)).1 = RuneError ∧ (DecodeRune (b :: rest)).2 = 1) := by
    rw [DecodeRune_ascii b rest hb]
    simp only [RuneError, and_true]
    omega
  rw [coerceAux.eq_3, if_neg hne, DecodeRune_ascii b rest hb]
  simp

/-- Decoding an encoded string gives the string coerced to valid UTF-8. -/
theorem unquoteAux_stringBody : ∀ (fuel : Nat) (s : Bytes) (g : Nat) (tail : Bytes),
    s.length ≤ fuel → (stringBody fuel s).length < g →
    unquoteAux g (stringBody fuel s ++ 0x22 :: tail) = some (coerceAux fuel s, tail) := by
  have hu00 : utf8 "\\u00" = [0x5C, 0x75, 0x30, 0x30] := by decide
  have hu202 : utf8 "\\u202" = [0x5C, 0x75, 0x32, 0x30, 0x32] := by decide
  have hufffd : utf8 "\\ufffd" = [0x5C, 0x75, 0x66, 0x66, 0x66, 0x64] := by decide
  intro fuel
  induction fuel with
  | zero =>
    intro s g tail hlen hg
    have hs : s = [] := List.eq_nil_of_length_eq_zero (by omega)
    subst hs
    obtain ⟨g', rfl⟩ : ∃ g', g = g' + 1 := ⟨g - 1, by omega⟩
    simp [stringBody, coerceAux, unquoteAux_quote]
  | succ f ih =>
    intro s g tail hlen hg
    cases s with
    | nil =>
      obtain ⟨g', rfl⟩ : ∃ g', g = g' + 1 := ⟨g - 1, by omega⟩
      simp [stringBody, coerceAux, unquoteAux_quote]
    | cons b rest =>
      have hrest : rest.length ≤ f := by simpa using hlen
      rw [stringBody.eq_3] at hg ⊢
      by_cases hb : b < 0x80
      · -- an ASCII byte
        rw [coerceAux_ascii f b rest hb]
        rw [if_pos hb] at hg ⊢
        by_cases hsafe : htmlSafeSet b = true
        · rw [if_pos hsafe] at hg ⊢
          simp only [List.length_append, List.length_singleton] at hg
          obtain ⟨g', rfl⟩ : ∃ g', g = g' + 1 := ⟨g - 1, by omega⟩
          simp only [List.singleton_append, List.cons_append, List.nil_append]
          rw [unquoteAux_ascii g' b _ hsafe, ih rest g' tail hrest (by omega)]
          rfl
        · rw [if_neg hsafe] at hg ⊢
          by_cases hq : b = 0x5C ∨ b = 0x22
          · rw [if_pos hq] at hg ⊢
            simp only [List.length_append, List.length_cons, List.length_nil] at hg
            obtain ⟨g', rfl⟩ : ∃ g', g = g' + 1 := ⟨g - 1, by omega⟩
            simp only [List.cons_append, List.nil_append]
            rw [unquoteAux_escape g' b b _ (by omega) (by rcases hq with h | h <;> subst h <;> rfl),
              ih rest g' tail hrest (by omega)]
            rfl
          · rw [if_neg hq] at hg ⊢
            by_cases hn : b = 0x0A
            · rw [if_pos hn] at hg ⊢
              simp only [List.length_append, List.length_cons, List.length_nil] at hg
              obtain ⟨g', rfl⟩ : ∃ g', g = g' + 1 := ⟨g - 1, by omega⟩
              simp only [List.cons_append, List.nil_append]
              rw [unquoteAux_escape g' 0x6E 0x0A _ (by omega) rfl,
                ih rest g' tail hrest (by omega), hn]
              rfl
            · rw [if_neg hn] at hg ⊢
              by_cases hr : b = 0x0D
              · rw [if_pos hr] at hg ⊢
                simp only [List.length_append, List.length_cons, List.length_nil] at hg
                obtain ⟨g', rfl⟩ : ∃ g', g = g' + 1 := ⟨g - 1, by omega⟩
                simp only [List.cons_append, List.nil_append]
                rw [unquoteAux_escape g' 0x72 0x0D _ (by omega) rfl,
                  ih rest g' tail hrest (by omega), hr]
                rfl
              · rw [if_neg hr] at hg ⊢
                by_cases ht : b = 0x09
                · rw [if_pos ht] at hg ⊢
                  simp only [List.length_append, List.length_cons, List.length_nil] at hg
                  obtain ⟨g', rfl⟩ : ∃ g', g = g' + 1 := ⟨g - 1, by omega⟩
                  simp only [List.cons_append, List.nil_append]
                  rw [unquoteAux_escape g' 0x74 0x09 _ (by omega) rfl,
                    ih rest g' tail hrest (by omega), ht]
                  rfl
                · rw [if_neg ht, hu00] at hg ⊢
                  simp only [List.length_append, List.length_cons, List.length_nil] at hg
                  obtain ⟨g', rfl⟩ : ∃ g', g = g' + 1 := ⟨g - 1, by omega⟩
                  simp only [List.cons_append, List.nil_append]
                  rw [unquoteAux_u g' (b / 16 * 16 + b % 16) _ _ _ _ _
                      (getu4_low (b / 16) (b % 16) (by omega) (by omega) _) (by omega),
                    ih rest g' tail hrest (by omega)]
                  have hb' : b / 16 * 16 + b % 16 = b := by omega
                  rw [hb']
                  simp [EncodeRune, show b ≤ 0x7F by omega]
      · rw [coerceAux.eq_3]
        by_cases herr : (DecodeRune (b :: rest)).1 = RuneError ∧ (DecodeRune (b :: rest)).2 = 1
        · -- an invalid byte
          rw [if_neg hb, if_pos herr, hufffd] at hg ⊢
          rw [if_pos herr]
          simp only [List.length_append, List.length_cons, List.length_nil] at hg
          obtain ⟨g', rfl⟩ : ∃ g', g = g' + 1 := ⟨g - 1, by omega⟩
          simp only [List.cons_append, List.nil_append]
          rw [unquoteAux_u g' 0xFFFD _ _ _ _ _ (getu4_fffd _) (by omega),
            ih rest g' tail hrest (by omega)]
          rfl
        · -- a multi-byte rune
          obtain ⟨h2, hle, henc, hstable, _, hsur⟩ := goodStep b rest hb herr
          have hdrop : (rest.drop ((DecodeRune (b :: rest)).2 - 1)).length ≤ f := by
            rw [List.length_drop]; omega
          have htake : (rest.take ((DecodeRune (b :: rest)).2 - 1)).length
              = (DecodeRune (b :: rest)).2 - 1 := by
            rw [List.length_take]; omega
          rw [if_neg hb, if_neg herr] at hg ⊢
          rw [if_neg herr]
          by_cases hsep : (DecodeRune (b :: rest)).1 = 0x2028 ∨ (DecodeRune (b :: rest)).1 = 0x2029
          · rw [if_pos hsep, hu202] at hg ⊢
            simp only [List.length_append, List.length_cons, List.length_nil] at hg
            obtain ⟨g', rfl⟩ : ∃ g', g = g' + 1 := ⟨g - 1, by omega⟩
            simp only [List.cons_append, List.nil_append]
            rw [unquoteAux_u g' (0x2020 + (DecodeRune (b :: rest)).1 % 16) _ _ _ _ _
                (getu4_202 _ (by omega) _) (by omega),
              ih _ g' tail hdrop (by omega)]
            have hrr : 0x2020 + (DecodeRune (b :: rest)).1 % 16 = (DecodeRune (b :: rest)).1 := by
              omega
            rw [hrr, henc]
            simp
          · rw [if_neg hsep] at hg ⊢
            simp only [List.length_append, List.length_cons] at hg
            obtain ⟨g', rfl⟩ : ∃ g', g = g' + 1 := ⟨g - 1, by omega⟩
            simp only [List.cons_append, List.append_assoc]
            rw [unquoteAux_rune g' b _ hb, hstable, List.drop_left' htake,
              ih _ g' tail hdrop (by omega), henc]
            simp

/-- Coercion leaves a valid string as it is. -/
theorem coerceAux_valid : ∀ (fuel : Nat) (s : Bytes),
    s.length ≤ fuel → validAux fuel s = true → coerceAux fuel s = s := by
  intro fuel
  induction fuel with
  | zero =>
    intro s hlen _
    have hs : s = [] := List.eq_nil_of_length_eq_zero (by omega)
    subst hs
    rfl
  | succ f ih =>
    intro s hlen hvalid
    cases s with
    | nil => rfl
    | cons b rest =>
      have hrest : rest.length ≤ f := by simpa using hlen
      rw [validAux.eq_3] at hvalid
      rw [coerceAux.eq_3]
      by_cases herr : (DecodeRune (b :: rest)).1 = RuneError ∧ (DecodeRune (b :: rest)).2 = 1
      · rw [if_pos herr] at hvalid
        exact absurd hvalid (by simp)
      · rw [if_neg herr] at hvalid ⊢
        have hdrop : (rest.drop ((DecodeRune (b :: rest)).2 - 1)).length ≤ f := by
          rw [List.length_drop]; omega
        rw [ih _ hdrop hvalid]
        simp

theorem coerceUTF8_valid (s : Bytes) (h : ValidString s = true) : coerceUTF8 s = s :=
  coerceAux_valid s.length s (Nat.le_refl _) h

theorem unquote_stringBody (s tail : Bytes) :
    unquote (stringBody s.length s ++ 0x22 :: tail) = some (coerceUTF8 s, tail) := by
  unfold unquote coerceUTF8
  exact unquoteAux_stringBody s.length s _ tail (Nat.le_refl _) (by simp)

theorem unquote_plain (k tail : Bytes) (hv : coerceUTF8 k = k)
    (hk : stringBody k.length k = k) :
    unquote (k ++ 0x22 :: tail) = some (k, tail) := by
  have := unquote_stringBody k tail
  rwa [hk, hv] at this

theorem skipSpace_cons (c : Nat) (r : Bytes) (h : isSpace c = false) :
    skipSpace (c :: r) = c :: r := by
  simp [skipSpace, h]

theorem parseValue_string (f : Nat) (s tail : Bytes) :
    parseValue (f + 1) (encodeString s ++ tail) = some (JValue.string (coerceUTF8 s), tail) := by
  unfold encodeString
  rw [parseValue.eq_2]
  simp only [List.cons_append, List.append_assoc, List.singleton_append]
  rw [skipSpace_cons _ _ (by decide)]
  simp only [Nat.reduceEqDiff, ↓reduceIte, List.nil_append]
  rw [unquote_stringBody s tail]
  rfl

theorem parseMembers_last (f : Nat) (k s tail : Bytes) (hkv : coerceUTF8 k = k)
    (hk : stringBody k.length k = k) :
    parseMembers (f + 2) (0x22 :: (k ++ 0x22 :: 0x3A :: (encodeString s ++ 0x7D :: tail)))
      = some ([(k, JValue.string (coerceUTF8 s))], tail) := by
  rw [parseMembers.eq_3]
  simp only [↓reduceIte]
  rw [unquote_plain k _ hkv hk]
  simp only
  rw [skipSpace_cons _ _ (by decide)]
  simp only [↓reduceIte]
  rw [parseValue_string f s _]
  simp only
  rw [skipSpace_cons _ _ (by decide)]
  simp only [↓reduceIte]

theorem parseMembers_more (f : Nat) (k s more : Bytes) (hkv : coerceUTF8 k = k)
    (hk : stringBody k.length k = k) :
    parseMembers (f + 2)
        (0x22 :: (k ++ 0x22 :: 0x3A :: (encodeString s ++ 0x2C :: 0x22 :: more)))
      = (parseMembers (f + 1) (0x22 :: more)).map
          (fun p => ((k, JValue.string (coerceUTF8 s)) :: p.1, p.2)) := by
  rw [parseMembers.eq_3]
  simp only [↓reduceIte]
  rw [unquote_plain k _ hkv hk]
  simp only
  rw [skipSpace_cons _ _ (by decide)]
  simp only [↓reduceIte]
  rw [parseValue_string f s _]
  simp only
  rw [skipSpace_cons _ _ (by decide)]
  simp only [Nat.reduceEqDiff, ↓reduceIte]
  rw [skipSpace_cons _ _ (by decide)]

/-! ## JSON: decoding an encoded ticket -/

theorem Marshal_shape (t : Ticket) :
    Marshal t = 0x7B :: 0x22 :: (utf8 "organisator" ++ 0x22 :: 0x3A :: (encodeString t.Organisator
      ++ 0x2C :: 0x22 :: (utf8 "event" ++ 0x22 :: 0x3A :: (encodeString t.Event
      ++ 0x2C :: 0x22 :: (utf8 "date" ++ 0x22 :: 0x3A :: (encodeString t.Date
      ++ 0x2C :: 0x22 :: (utf8 "owner" ++ 0x22 :: 0x3A :: (encodeString t.Owner
      ++ 0x7D :: [])))))))) := by
  have h1 : utf8 "\x7b\"organisator\":" = 0x7B :: 0x22 :: (utf8 "organisator" ++ [0x22, 0x3A]) := by
    decide
  have h2 : utf8 ",\"event\":" = 0x2C :: 0x22 :: (utf8 "event" ++ [0x22, 0x3A]) := by decide
  have h3 : utf8 ",\"date\":" = 0x2C :: 0x22 :: (utf8 "date" ++ [0x22, 0x3A]) := by decide
  have h4 : utf8 ",\"owner\":" = 0x2C :: 0x22 :: (utf8 "owner" ++ [0x22, 0x3A]) := by decide
  have h5 : utf8 "\x7d" = [0x7D] := by decide
  unfold Marshal
  rw [h1, h2, h3, h4, h5]
  simp only [List.append_assoc, List.cons_append, List.nil_append]

theorem parseJSON_Marshal (t : Ticket) :
    parseJSON (Marshal t) = some (JValue.object
      [(utf8 "organisator", JValue.string (coerceUTF8 t.Organisator)),
       (utf8 "event", JValue.string (coerceUTF8 t.Event)),
       (utf8 "date", JValue.string (coerceUTF8 t.Date)),
       (utf8 "owner", JValue.string (coerceUTF8 t.Owner))]) := by
  unfold parseJSON
  obtain ⟨n, hn⟩ : ∃ n, (Marshal t).length + 1 = n + 6 := by
    refine ⟨(Marshal t).length - 5, ?_⟩
    have : 5 ≤ (Marshal t).length := by
      rw [Marshal_shape]
      simp only [List.length_cons, List.length_append]
      omega
    omega
  rw [hn, Marshal_shape, parseValue.eq_2, skipSpace_cons _ _ (by decide)]
  simp only [↓reduceIte]
  rw [skipSpace_cons _ _ (by decide)]
  simp only [Nat.reduceEqDiff, ↓reduceIte]
  rw [parseMembers_more (n + 3) _ _ _ (by decide) (by decide),
    parseMembers_more (n + 2) _ _ _ (by decide) (by decide),
    parseMembers_more (n + 1) _ _ _ (by decide) (by decide),
    parseMembers_last n _ _ _ (by decide) (by decide)]
  rfl

/-- Decoding the encoding of any ticket overwrites all four fields with the fields coerced to
valid UTF-8, without error. -/
theorem Unmarshal_Marshal_coerce (t t0 : Ticket) :
    Unmarshal (Marshal t) t0
      = (⟨coerceUTF8 t.Organisator, coerceUTF8 t.Event, coerceUTF8 t.Date,
          coerceUTF8 t.Owner⟩, false) := by
  have f1 : findField (utf8 "organisator") = some Field.organisator := by decide
  have f2 : findField (utf8 "event") = some Field.event := by decide
  have f3 : findField (utf8 "date") = some Field.date := by decide
  have f4 : findField (utf8 "owner") = some Field.owner := by decide
  unfold Unmarshal
  rw [parseJSON_Marshal t]
  simp only [List.foldl, storeMember, f1, f2, f3, f4, Ticket.set]

/-- Decoding the encoding of a ticket with valid UTF-8 fields overwrites all four fields. -/
theorem Unmarshal_Marshal (t t0 : Ticket) (h : t.Valid) :
    Unmarshal (Marshal t) t0 = (t, false) := by
  rw [Unmarshal_Marshal_coerce, coerceUTF8_valid _ h.1, coerceUTF8_valid _ h.2.1,
    coerceUTF8_valid _ h.2.2.1, coerceUTF8_valid _ h.2.2.2]

/-! ## Create, query, transfer -/

theorem createTicket_ok (stub : Stub) (k o e d w : Bytes) (hput : stub.putErr k = false) :
    createTicket stub [k, o, e, d, w]
      = (Response.Success [], { stub with ledger := stub.ledger.put k (Marshal ⟨o, e, d, w⟩) }) := by
  simp [createTicket, Stub.PutState, hput]

theorem queryTicket_ok (stub : Stub) (k : Bytes) (hget : stub.getErr k = false) :
    queryTicket stub [k] = (Response.Success ((stub.ledger.get k).getD []), stub) := by
  simp [queryTicket, Stub.GetState, hget]

theorem changeTicketOwner_ok (stub : Stub) (k w : Bytes) (hget : stub.getErr k = false)
    (hput : stub.putErr k = false) :
    changeTicketOwner stub [k, w]
      = (Response.Success [],
         { stub with
           ledger := (stub.ledger.put k
            (Marshal { (Unmarshal ((stub.ledger.get k).getD []) ⟨[], [], [], []⟩).1 with
              Owner := w })) }) := by
  simp [changeTicketOwner, Stub.PutState, Stub.GetState, hget, hput]

theorem Unmarshal_not_object (v : Bytes) (t0 : Ticket)
    (h : ∀ members, parseJSON v ≠ some (JValue.object members)) :
    (Unmarshal v t0).1 = t0 := by
  unfold Unmarshal
  cases hp : parseJSON v with
  | none => rfl
  | some j =>
    cases j with
    | object members => exact absurd hp (h members)
    | null => rfl
    | bool b => rfl
    | number => rfl
    | string s => rfl
    | array elems => rfl

/-! ## Swallowed store errors -/

theorem queryTicket_read_fails (stub : Stub) (k : Bytes) (h : stub.getErr k = true) :
    queryTicket stub [k] = (Response.Success [], stub) := by
  simp [queryTicket, Stub.GetState, h]

theorem createTicket_write_fails (stub : Stub) (k o e d w : Bytes) (h : stub.putErr k = true) :
    createTicket stub [k, o, e, d, w] = (Response.Success [], stub) := by
  simp [createTicket, Stub.PutState, h]

/-! ## Properties of the contract -/

/-- C1, amended: for every ledger (served by a host whose reads and writes do not fail),
every key `k` and all strings `o`, `e`, `d`, `w` that are valid UTF-8, `createTicket` on
`[k, o, e, d, w]` succeeds, whatever `k` held before, and a following `queryTicket` on `[k]`
succeeds with the JSON encoding of the ticket, which decodes to the ticket with exactly these
four fields. -/
theorem create_then_query (L : Ledger) (k o e d w : Bytes)
    (ho : ValidString o = true) (he : ValidString e = true) (hd : ValidString d = true)
    (hw : ValidString w = true) :
    (createTicket (hostOf L) [k, o, e, d, w]).1 = Response.Success [] ∧
    (queryTicket (createTicket (hostOf L) [k, o, e, d, w]).2 [k]).1
      = Response.Success (Marshal ⟨o, e, d, w⟩) ∧
    decodesTo (Marshal ⟨o, e, d, w⟩) ⟨o, e, d, w⟩ := by
  refine ⟨?_, ?_, Unmarshal_Marshal _ _ ⟨ho, he, hd, hw⟩⟩
  · rw [createTicket_ok (hostOf L) k o e d w rfl]
  · simp [createTicket, Stub.PutState, queryTicket, Stub.GetState, hostOf, Ledger.get_put_same]

/-- C1 at a concrete input, on a ledger where the key already holds a value: "Ticket0" of the
seeded ledger is overwritten and read back. -/
theorem create_then_query_witness :
    ValidString (utf8 "Théâtre") = true ∧
    (queryTicket (createTicket (hostOf seededLedger)
        [utf8 "Ticket0", utf8 "Théâtre", utf8 "a<b", utf8 "2018", utf8 "Zoë"]).2
        [utf8 "Ticket0"]).1
      = Response.Success (Marshal ⟨utf8 "Théâtre", utf8 "a<b", utf8 "2018", utf8 "Zoë"⟩) ∧
    decodesTo (Marshal ⟨utf8 "Théâtre", utf8 "a<b", utf8 "2018", utf8 "Zoë"⟩)
      ⟨utf8 "Théâtre", utf8 "a<b", utf8 "2018", utf8 "Zoë"⟩ :=
  ⟨by decide,
   (create_then_query seededLedger (utf8 "Ticket0") (utf8 "Théâtre") (utf8 "a<b")
      (utf8 "2018") (utf8 "Zoë") (by decide) (by decide) (by decide) (by decide)).2⟩

/-- C1 as stated fails: with the one-byte organiser `0xFF`, which is not valid UTF-8, the
payload `queryTicket` returns after `createTicket` does not decode to the ticket created. -/
theorem create_then_query_counterexample :
    ¬ ∃ payload,
      (queryTicket (createTicket (hostOf Ledger.empty)
          [utf8 "Ticket9", [0xFF], utf8 "e", utf8 "d", utf8 "w"]).2 [utf8 "Ticket9"]).1
        = Response.Success payload ∧
      decodesTo payload ⟨[0xFF], utf8 "e", utf8 "d", utf8 "w"⟩ := by
  rintro ⟨payload, hq, hdec⟩
  have hq' : (queryTicket (createTicket (hostOf Ledger.empty)
      [utf8 "Ticket9", [0xFF], utf8 "e", utf8 "d", utf8 "w"]).2 [utf8 "Ticket9"]).1
      = Response.Success
          (utf8 "\x7b\"organisator\":\"\\ufffd\",\"event\":\"e\",\"date\":\"d\",\"owner\":\"w\"\x7d") := by
    decide
  rw [hq'] at hq
  injection hq with hp
  subst hp
  revert hdec
  decide

theorem not_decodes_of_get (L : Ledger) (k v0 : Bytes) (t : Ticket)
    (hget : L.get k = some v0) (hno : ¬ decodesTo v0 t) :
    ¬ ∃ v, L.get k = some v ∧ decodesTo v t := by
  rintro ⟨v, hv, hdec⟩
  rw [hget] at hv
  injection hv with hv
  subst hv
  exact hno hdec

/-- C2, amended: for every ledger (served by a host whose reads and writes do not fail) in
which `k` holds the JSON encoding of a ticket `t` whose organiser, event and date are valid
UTF-8 (the old owner may be any bytes), and every valid UTF-8 string `w`,
`changeTicketOwner` on `[k, w]` succeeds and leaves at `k` the JSON encoding of `t` with the
owner replaced, which decodes to the ticket with owner `w` and the organiser, event and date
of `t`; no other key changes. -/
theorem changeTicketOwner_only_owner (L : Ledger) (k w : Bytes) (t : Ticket)
    (hstored : L.get k = some (Marshal t))
    (ho : ValidString t.Organisator = true) (he : ValidString t.Event = true)
    (hd : ValidString t.Date = true) (hw : ValidString w = true) :
    (changeTicketOwner (hostOf L) [k, w]).1 = Response.Success [] ∧
    (changeTicketOwner (hostOf L) [k, w]).2.ledger.get k
      = some (Marshal ⟨t.Organisator, t.Event, t.Date, w⟩) ∧
    decodesTo (Marshal ⟨t.Organisator, t.Event, t.Date, w⟩)
      ⟨t.Organisator, t.Event, t.Date, w⟩ ∧
    (∀ k', k' ≠ k → (changeTicketOwner (hostOf L) [k, w]).2.ledger.get k' = L.get k') := by
  have hc := changeTicketOwner_ok (hostOf L) k w rfl rfl
  rw [show (hostOf L).ledger = L from rfl, hstored] at hc
  simp only [Option.getD_some] at hc
  rw [Unmarshal_Marshal_coerce t _, coerceUTF8_valid _ ho, coerceUTF8_valid _ he,
    coerceUTF8_valid _ hd] at hc
  rw [hc]
  refine ⟨rfl, Ledger.get_put_same _ _ _, Unmarshal_Marshal _ _ ⟨ho, he, hd, hw⟩, ?_⟩
  intro k' hk'
  exact Ledger.get_put_ne _ _ _ _ hk'

/-- C2 at a concrete input whose old owner `0xFF` is not valid UTF-8: after the transfer to
"w" the record decodes to the same organiser, event and date with owner "w". -/
theorem changeTicketOwner_only_owner_witness :
    (ledgerWith ⟨utf8 "a", utf8 "e", utf8 "d", [0xFF]⟩).get (utf8 "Ticket9")
      = some (Marshal ⟨utf8 "a", utf8 "e", utf8 "d", [0xFF]⟩) ∧
    (changeTicketOwner (hostOf (ledgerWith ⟨utf8 "a", utf8 "e", utf8 "d", [0xFF]⟩))
        [utf8 "Ticket9", utf8 "w"]).2.ledger.get (utf8 "Ticket9")
      = some (Marshal ⟨utf8 "a", utf8 "e", utf8 "d", utf8 "w"⟩) ∧
    decodesTo (Marshal ⟨utf8 "a", utf8 "e", utf8 "d", utf8 "w"⟩)
      ⟨utf8 "a", utf8 "e", utf8 "d", utf8 "w"⟩ :=
  ⟨by decide,
   (changeTicketOwner_only_owner (ledgerWith ⟨utf8 "a", utf8 "e", utf8 "d", [0xFF]⟩)
      (utf8 "Ticket9") (utf8 "w") ⟨utf8 "a", utf8 "e", utf8 "d", [0xFF]⟩
      (by decide) (by decide) (by decide) (by decide) (by decide)).2.1,
   (changeTicketOwner_only_owner (ledgerWith ⟨utf8 "a", utf8 "e", utf8 "d", [0xFF]⟩)
      (utf8 "Ticket9") (utf8 "w") ⟨utf8 "a", utf8 "e", utf8 "d", [0xFF]⟩
      (by decide) (by decide) (by decide) (by decide) (by decide)).2.2.1⟩

set_option maxRecDepth 100000 in
/-- C2 as stated fails in four ways, one for each string the amended claim asks to be valid
UTF-8.  "Ticket9" holds the JSON encoding of a ticket, yet after the transfer the value at the
key does not decode to that ticket with the new owner: when the new owner is `0xFF`, when the
stored organiser is `0xFF`, when the stored event is `0xFF`, and when the stored date is
`0xFF`. -/
theorem changeTicketOwner_only_owner_counterexample :
    ((ledgerWith ⟨utf8 "a", utf8 "e", utf8 "d", utf8 "o"⟩).get (utf8 "Ticket9")
        = some (Marshal ⟨utf8 "a", utf8 "e", utf8 "d", utf8 "o"⟩) ∧
      ¬ ∃ v, (changeTicketOwner (hostOf (ledgerWith ⟨utf8 "a", utf8 "e", utf8 "d", utf8 "o"⟩))
            [utf8 "Ticket9", [0xFF]]).2.ledger.get (utf8 "Ticket9") = some v ∧
          decodesTo v ⟨utf8 "a", utf8 "e", utf8 "d", [0xFF]⟩) ∧
    ((ledgerWith ⟨[0xFF], utf8 "e", utf8 "d", utf8 "o"⟩).get (utf8 "Ticket9")
        = some (Marshal ⟨[0xFF], utf8 "e", utf8 "d", utf8 "o"⟩) ∧
      ¬ ∃ v, (changeTicketOwner (hostOf (ledgerWith ⟨[0xFF], utf8 "e", utf8 "d", utf8 "o"⟩))
            [utf8 "Ticket9", utf8 "w"]).2.ledger.get (utf8 "Ticket9") = some v ∧
          decodesTo v ⟨[0xFF], utf8 "e", utf8 "d", utf8 "w"⟩) ∧
    ((ledgerWith ⟨utf8 "a", [0xFF], utf8 "d", utf8 "o"⟩).get (utf8 "Ticket9")
        = some (Marshal ⟨utf8 "a", [0xFF], utf8 "d", utf8 "o"⟩) ∧
      ¬ ∃ v, (changeTicketOwner (hostOf (ledgerWith ⟨utf8 "a", [0xFF], utf8 "d", utf8 "o"⟩))
            [utf8 "Ticket9", utf8 "w"]).2.ledger.get (utf8 "Ticket9") = some v ∧
          decodesTo v ⟨utf8 "a", [0xFF], utf8 "d", utf8 "w"⟩) ∧
    ((ledgerWith ⟨utf8 "a", utf8 "e", [0xFF], utf8 "o"⟩).get (utf8 "Ticket9")
        = some (Marshal ⟨utf8 "a", utf8 "e", [0xFF], utf8 "o"⟩) ∧
      ¬ ∃ v, (changeTicketOwner (hostOf (ledgerWith ⟨utf8 "a", utf8 "e", [0xFF], utf8 "o"⟩))
            [utf8 "Ticket9", utf8 "w"]).2.ledger.get (utf8 "Ticket9") = some v ∧
          decodesTo v ⟨utf8 "a", utf8 "e", [0xFF], utf8 "w"⟩) := by
  refine ⟨⟨by decide, ?_⟩, ⟨by decide, ?_⟩, ⟨by decide, ?_⟩, ⟨by decide, ?_⟩⟩
  · exact not_decodes_of_get _ _ (Marshal ⟨utf8 "a", utf8 "e", utf8 "d", [0xFF]⟩) _
      (by decide) (by decide)
  · exact not_decodes_of_get _ _
      (Marshal ⟨[0xEF, 0xBF, 0xBD], utf8 "e", utf8 "d", utf8 "w"⟩) _ (by decide) (by decide)
  · exact not_decodes_of_get _ _
      (Marshal ⟨utf8 "a", [0xEF, 0xBF, 0xBD], utf8 "d", utf8 "w"⟩) _ (by decide) (by decide)
  · exact not_decodes_of_get _ _
      (Marshal ⟨utf8 "a", utf8 "e", [0xEF, 0xBF, 0xBD], utf8 "w"⟩) _ (by decide) (by decide)

/-- C3: for every ledger (served by a host whose reads and writes do not fail),
`initLedger` succeeds, and afterwards each of "Ticket0" ..
"Ticket5" holds the JSON encoding of the hard-coded ticket of the same position, which decodes
to that ticket and is what `queryTicket` returns for the key; every other key holds what it
held before. -/
theorem initLedger_seeds_six (L : Ledger) :
    (initLedger (hostOf L)).1 = Response.Success [] ∧
    (∀ kt ∈ List.zip seedKeys tickets,
      (initLedger (hostOf L)).2.ledger.get kt.1 = some (Marshal kt.2) ∧
      decodesTo (Marshal kt.2) kt.2 ∧
      queryTicket (initLedger (hostOf L)).2 [kt.1]
        = (Response.Success (Marshal kt.2), (initLedger (hostOf L)).2)) ∧
    (∀ k, k ∉ seedKeys → (initLedger (hostOf L)).2.ledger.get k = L.get k) := by
  have hinit := initLedger_ledger (hostOf L) (fun _ _ => rfl)
  refine ⟨rfl, ?_, ?_⟩
  · have hget : ∀ kt ∈ List.zip seedKeys tickets,
        (initLedger (hostOf L)).2.ledger.get kt.1 = some (Marshal kt.2) := by
      intro kt hkt
      rw [hinit]
      simp only [seedKeys, tickets, List.zip_cons_cons, List.zip_nil_right, List.mem_cons,
        List.not_mem_nil, or_false] at hkt
      simp only [tickets, List.getD_cons_zero, List.getD_cons_succ]
      rcases hkt with rfl | rfl | rfl | rfl | rfl | rfl
      · rw [Ledger.get_put_ne _ _ _ _ (by decide), Ledger.get_put_ne _ _ _ _ (by decide),
          Ledger.get_put_ne _ _ _ _ (by decide), Ledger.get_put_ne _ _ _ _ (by decide),
          Ledger.get_put_ne _ _ _ _ (by decide), Ledger.get_put_same]
      · rw [Ledger.get_put_ne _ _ _ _ (by decide), Ledger.get_put_ne _ _ _ _ (by decide),
          Ledger.get_put_ne _ _ _ _ (by decide), Ledger.get_put_ne _ _ _ _ (by decide),
          Ledger.get_put_same]
      · rw [Ledger.get_put_ne _ _ _ _ (by decide), Ledger.get_put_ne _ _ _ _ (by decide),
          Ledger.get_put_ne _ _ _ _ (by decide), Ledger.get_put_same]
      · rw [Ledger.get_put_ne _ _ _ _ (by decide), Ledger.get_put_ne _ _ _ _ (by decide),
          Ledger.get_put_same]
      · rw [Ledger.get_put_ne _ _ _ _ (by decide), Ledger.get_put_same]
      · rw [Ledger.get_put_same]
    intro kt hkt
    refine ⟨hget kt hkt, seeded_tickets_decode kt.2 (List.of_mem_zip hkt).2, ?_⟩
    have hg : (initLedger (hostOf L)).2.getErr kt.1 = false := by
      rw [hinit]
      rfl
    simp [queryTicket, Stub.GetState, hg, hget kt hkt]
  · intro k hk
    simp only [seedKeys, List.mem_cons, List.not_mem_nil, or_false, not_or] at hk
    rw [hinit]
    simp only [hostOf]
    rw [Ledger.get_put_ne _ _ _ _ hk.2.2.2.2.2, Ledger.get_put_ne _ _ _ _ hk.2.2.2.2.1,
      Ledger.get_put_ne _ _ _ _ hk.2.2.2.1, Ledger.get_put_ne _ _ _ _ hk.2.2.1,
      Ledger.get_put_ne _ _ _ _ hk.2.1, Ledger.get_put_ne _ _ _ _ hk.1]

/-- C3 on a concrete ledger: seeding `sampleLedger` puts the fifth ticket under "Ticket4" and
leaves the record under "TICKET5" alone. -/
theorem initLedger_seeds_six_witness :
    (utf8 "Ticket4", (⟨utf8 "BroadwayTheater", utf8 "Madonna", utf8 "201805010", utf8 "Phil"⟩ :
        Ticket)) ∈ List.zip seedKeys tickets ∧
    (initLedger (hostOf sampleLedger)).2.ledger.get (utf8 "Ticket4")
      = some (Marshal ⟨utf8 "BroadwayTheater", utf8 "Madonna", utf8 "201805010", utf8 "Phil"⟩) ∧
    (utf8 "TICKET5" ∉ seedKeys ∧
      (initLedger (hostOf sampleLedger)).2.ledger.get (utf8 "TICKET5")
        = sampleLedger.get (utf8 "TICKET5")) :=
  ⟨by decide,
   ((initLedger_seeds_six sampleLedger).2.1
      (utf8 "Ticket4",
        ⟨utf8 "BroadwayTheater", utf8 "Madonna", utf8 "201805010", utf8 "Phil"⟩)
      (by decide)).1,
   by decide, (initLedger_seeds_six sampleLedger).2.2 (utf8 "TICKET5") (by decide)⟩

/-- The payload text of `queryAllTickets`: when the range scan does not fail, it succeeds and
leaves the stub as it was; its payload is "[", the members joined by ",", and "]", one member
`{"Key":"<k>", "Record":<stored value>}` for each record the host delivers for the range from
"TICKET0" to "TICKET999", in the order of delivery.  The delivered records are exactly those
of the ledger whose key is in the range (start inclusive, end exclusive, byte-lexical order),
each key once, and the payload is "[]" when no key is in range. -/
theorem queryAllTickets_payload (stub : Stub) (h : ¬ rangeScanFails stub) :
    queryAllTickets stub
      = (Response.Success (utf8 "[" ++ List.intercalate (utf8 ",")
          ((stub.ledger.range (utf8 "TICKET0") (utf8 "TICKET999")).map memberJSON) ++ utf8 "]"),
         stub) ∧
    (∀ k v, (k, v) ∈ stub.ledger.range (utf8 "TICKET0") (utf8 "TICKET999") ↔
      stub.ledger.get k = some v ∧ bytesLt k (utf8 "TICKET0") = false ∧
        bytesLt k (utf8 "TICKET999") = true) ∧
    ((stub.ledger.range (utf8 "TICKET0") (utf8 "TICKET999")).map Prod.fst).Nodup ∧
    (stub.ledger.range (utf8 "TICKET0") (utf8 "TICKET999") = [] →
      queryAllTickets stub = (Response.Success (utf8 "[]"), stub)) := by
  refine ⟨queryAllTickets_of_ok stub h, ?_, Ledger.nodup_range _ _ _, ?_⟩
  · intro k v
    rw [Ledger.mem_range]
    simp [inRange]
  · intro hempty
    rw [queryAllTickets_of_ok stub h, hempty]
    rfl

set_option maxRecDepth 100000 in
/-- C4: the code misses the claim when a key in the scan range holds a double quote.  After `createTicket` under the key
`TICKET1"},{"Key":"x` on the empty ledger, exactly one record is in the scan range and
`queryAllTickets` succeeds, but its payload, in which the key stands unescaped, is a JSON
array of two elements.  After `createTicket` under the key `TICKET1"x`, again one record is in
range and the payload is not JSON at all.  With the plain key `TICKET1` the payload is a JSON
array of one element. -/
theorem queryAllTickets_unescaped_key :
    (((createdUnder quoteKey).ledger.range (utf8 "TICKET0") (utf8 "TICKET999")).length = 1 ∧
      (queryAllTickets (createdUnder quoteKey)).1
        = Response.Success (utf8 ("[\x7b\"Key\":\"TICKET1\"\x7d,\x7b\"Key\":\"x\", \"Record\":" ++
            "\x7b\"organisator\":\"a\",\"event\":\"b\",\"date\":\"c\",\"owner\":\"d\"\x7d\x7d]")) ∧
      jsonArrayLength (utf8 ("[\x7b\"Key\":\"TICKET1\"\x7d,\x7b\"Key\":\"x\", \"Record\":" ++
            "\x7b\"organisator\":\"a\",\"event\":\"b\",\"date\":\"c\",\"owner\":\"d\"\x7d\x7d]"))
        = some 2) ∧
    (((createdUnder brokenKey).ledger.range (utf8 "TICKET0") (utf8 "TICKET999")).length = 1 ∧
      (queryAllTickets (createdUnder brokenKey)).1
        = Response.Success (utf8 ("[\x7b\"Key\":\"TICKET1\"x\", \"Record\":" ++
            "\x7b\"organisator\":\"a\",\"event\":\"b\",\"date\":\"c\",\"owner\":\"d\"\x7d\x7d]")) ∧
      jsonArrayLength (utf8 ("[\x7b\"Key\":\"TICKET1\"x\", \"Record\":" ++
            "\x7b\"organisator\":\"a\",\"event\":\"b\",\"date\":\"c\",\"owner\":\"d\"\x7d\x7d]"))
        = none) ∧
    (((createdUnder (utf8 "TICKET1")).ledger.range (utf8 "TICKET0") (utf8 "TICKET999")).length
        = 1 ∧
      (queryAllTickets (createdUnder (utf8 "TICKET1"))).1
        = Response.Success (utf8 ("[\x7b\"Key\":\"TICKET1\", \"Record\":" ++
            "\x7b\"organisator\":\"a\",\"event\":\"b\",\"date\":\"c\",\"owner\":\"d\"\x7d\x7d]")) ∧
      jsonArrayLength (utf8 ("[\x7b\"Key\":\"TICKET1\", \"Record\":" ++
            "\x7b\"organisator\":\"a\",\"event\":\"b\",\"date\":\"c\",\"owner\":\"d\"\x7d\x7d]"))
        = some 1) := by
  decide

/-- C5: `Invoke` runs the handler whose name the function name is exactly, and for every other
name returns the error "Invalid Smart Contract function name." and leaves the stub as it was. -/
theorem Invoke_dispatch (stub : Stub) (function : Bytes) (args : List Bytes) :
    (function = utf8 "queryTicket" → Invoke stub function args = queryTicket stub args) ∧
    (function = utf8 "initLedger" → Invoke stub function args = initLedger stub) ∧
    (function = utf8 "createTicket" → Invoke stub function args = createTicket stub args) ∧
    (function = utf8 "queryAllTickets" → Invoke stub function args = queryAllTickets stub) ∧
    (function = utf8 "changeTicketOwner" →
      Invoke stub function args = changeTicketOwner stub args) ∧
    (¬ knownFunction function →
      Invoke stub function args
        = (Response.Error (utf8 "Invalid Smart Contract function name."), stub)) := by
  refine ⟨?_, ?_, ?_, ?_, ?_, ?_⟩
  · intro h; subst h; simp [Invoke]
  · intro h; subst h; unfold Invoke; rw [if_neg (by decide), if_pos rfl]
  · intro h; subst h; unfold Invoke; rw [if_neg (by decide), if_neg (by decide), if_pos rfl]
  · intro h; subst h; unfold Invoke
    rw [if_neg (by decide), if_neg (by decide), if_neg (by decide), if_pos rfl]
  · intro h; subst h; unfold Invoke
    rw [if_neg (by decide), if_neg (by decide), if_neg (by decide), if_neg (by decide),
      if_pos rfl]
  · intro h
    unfold knownFunction at h
    simp only [not_or] at h
    unfold Invoke
    rw [if_neg h.1, if_neg h.2.1, if_neg h.2.2.1, if_neg h.2.2.2.1, if_neg h.2.2.2.2]

/-- C5 at concrete inputs: the case variant "QueryTicket" and the empty name are not known
names and are answered with the error, the stub unchanged. -/
theorem Invoke_dispatch_witness :
    (¬ knownFunction (utf8 "QueryTicket") ∧
      Invoke (hostOf sampleLedger) (utf8 "QueryTicket") [utf8 "TICKET5"]
        = (Response.Error (utf8 "Invalid Smart Contract function name."),
           hostOf sampleLedger)) ∧
    (¬ knownFunction [] ∧
      Invoke (hostOf sampleLedger) [] [utf8 "TICKET5"]
        = (Response.Error (utf8 "Invalid Smart Contract function name."),
           hostOf sampleLedger)) :=
  ⟨⟨by unfold knownFunction; decide,
    (Invoke_dispatch (hostOf sampleLedger) (utf8 "QueryTicket") [utf8 "TICKET5"]).2.2.2.2.2
      (by unfold knownFunction; decide)⟩,
   ⟨by unfold knownFunction; decide,
    (Invoke_dispatch (hostOf sampleLedger) [] [utf8 "TICKET5"]).2.2.2.2.2
      (by unfold knownFunction; decide)⟩⟩

/-- C6: each argument-count check rejects exactly the wrong counts (`queryTicket` wants 1,
`createTicket` 5, `changeTicketOwner` 2), and a call that returns an error leaves the stub,
and so every key of the ledger, as it was. -/
theorem arg_count_checks (stub : Stub) (args : List Bytes) :
    ((queryTicket stub args).1.isError = true ↔ args.length ≠ 1) ∧
    ((createTicket stub args).1.isError = true ↔ args.length ≠ 5) ∧
    ((changeTicketOwner stub args).1.isError = true ↔ args.length ≠ 2) ∧
    ((queryTicket stub args).1.isError = true → (queryTicket stub args).2 = stub) ∧
    ((createTicket stub args).1.isError = true → (createTicket stub args).2 = stub) ∧
    ((changeTicketOwner stub args).1.isError = true →
      (changeTicketOwner stub args).2 = stub) := by
  refine ⟨queryTicket_isError stub args, createTicket_isError stub args,
    changeTicketOwner_isError stub args, ?_, ?_, ?_⟩
  · unfold queryTicket; split <;> simp_all [Response.isError]
  · unfold createTicket; split <;> simp_all [Response.isError]
  · unfold changeTicketOwner; split <;> simp_all [Response.isError]

/-- C6 at a concrete input: `createTicket` with four arguments returns an error and writes
nothing. -/
theorem arg_count_checks_witness :
    (createTicket emptyStub [utf8 "Ticket0", utf8 "a", utf8 "b", utf8 "c"]).1.isError = true ∧
    (createTicket emptyStub [utf8 "Ticket0", utf8 "a", utf8 "b", utf8 "c"]).2 = emptyStub :=
  ⟨by decide,
   (arg_count_checks emptyStub [utf8 "Ticket0", utf8 "a", utf8 "b", utf8 "c"]).2.2.2.2.1
     (by decide)⟩

/-- C7, amended: `Invoke` returns an error response exactly when the function name is not
one of the five, or a handler rejects the number of arguments, or the function is
`queryAllTickets` and the range scan fails.  Failing reads and writes of the store and
failing JSON decoding are never a cause. -/
theorem Invoke_error_iff (stub : Stub) (function : Bytes) (args : List Bytes) :
    (Invoke stub function args).1.isError = true ↔
      (¬ knownFunction function ∨ argCountMismatch function args ∨
        (function = utf8 "queryAllTickets" ∧ rangeScanFails stub)) := by
  unfold Invoke knownFunction argCountMismatch
  by_cases h1 : function = utf8 "queryTicket"
  · subst h1
    rw [if_pos rfl, queryTicket_isError]
    simp +decide
  · rw [if_neg h1]
    by_cases h2 : function = utf8 "initLedger"
    · subst h2
      rw [if_pos rfl]
      simp +decide [initLedger, Response.isError]
    · rw [if_neg h2]
      by_cases h3 : function = utf8 "createTicket"
      · subst h3
        rw [if_pos rfl, createTicket_isError]
        simp +decide
      · rw [if_neg h3]
        by_cases h4 : function = utf8 "queryAllTickets"
        · subst h4
          rw [if_pos rfl, queryAllTickets_isError]
          simp +decide
        · rw [if_neg h4]
          by_cases h5 : function = utf8 "changeTicketOwner"
          · subst h5
            rw [if_pos rfl, changeTicketOwner_isError]
            simp +decide
          · rw [if_neg h5]
            simp [h1, h2, h3, h4, h5, Response.isError]

/-- C7 as stated fails: the unknown function name "deleteTicket" is answered with an error
although no argument count is rejected and no range scan fails. -/
theorem Invoke_error_kinds_counterexample :
    ¬ ((Invoke emptyStub (utf8 "deleteTicket") []).1.isError = true →
        argCountMismatch (utf8 "deleteTicket") [] ∨ rangeScanFails emptyStub) := by
  intro h
  rcases h (by decide) with h | h
  · unfold argCountMismatch at h
    revert h
    decide
  · simp [rangeScanFails, emptyStub, hostOf] at h

/-- C8: for every ledger (served by a host whose reads do not fail) and key `k`,
`queryTicket` on `[k]` succeeds with exactly the bytes stored at `k`, or with an empty payload
when `k` is absent, and leaves the stub as it was. -/
theorem queryTicket_raw (L : Ledger) (k : Bytes) :
    (∀ v, L.get k = some v → queryTicket (hostOf L) [k] = (Response.Success v, hostOf L)) ∧
    (L.get k = none → queryTicket (hostOf L) [k] = (Response.Success [], hostOf L)) := by
  constructor
  · intro v hv
    simp [queryTicket, Stub.GetState, hostOf, hv]
  · intro hv
    simp [queryTicket, Stub.GetState, hostOf, hv]

/-- C8 at a concrete ledger: the record under "TICKET5" comes back byte for byte, and the
absent key "Ticket9" gives the empty payload. -/
theorem queryTicket_raw_witness :
    (sampleLedger.get (utf8 "TICKET5") = some (utf8 "\x7b\"owner\":\"Emad\"\x7d") ∧
      queryTicket (hostOf sampleLedger) [utf8 "TICKET5"]
        = (Response.Success (utf8 "\x7b\"owner\":\"Emad\"\x7d"), hostOf sampleLedger)) ∧
    (sampleLedger.get (utf8 "Ticket9") = none ∧
      queryTicket (hostOf sampleLedger) [utf8 "Ticket9"]
        = (Response.Success [], hostOf sampleLedger)) :=
  ⟨⟨by decide, (queryTicket_raw sampleLedger (utf8 "TICKET5")).1 _ (by decide)⟩,
   ⟨by decide, (queryTicket_raw sampleLedger (utf8 "Ticket9")).2 (by decide)⟩⟩

/-- C9: a key that begins with "Ticket" is outside the scan range from "TICKET0" to
"TICKET999"; so, starting from the empty ledger, after any sequence of `initLedger` calls and
`createTicket` calls whose key begins with "Ticket", `queryAllTickets` succeeds with the
payload "[]". -/
theorem queryAllTickets_misses_Ticket_keys :
    (∀ key : Bytes, utf8 "Ticket" <+: key →
      inRange (utf8 "TICKET0") (utf8 "TICKET999") key = false) ∧
    (∀ calls : List SeedCall, (∀ c ∈ calls, c.ticketKeyed) →
      queryAllTickets (calls.foldl SeedCall.run (hostOf Ledger.empty))
        = (Response.Success (utf8 "[]"), calls.foldl SeedCall.run (hostOf Ledger.empty))) := by
  refine ⟨ticket_prefix_not_inRange, ?_⟩
  intro calls hcalls
  have hinv := foldl_run_invariant calls (hostOf Ledger.empty) hcalls
    (by intro e he; cases he)
  have hrange := range_empty_of_ticketKeysOnly _ hinv.1
  have hok : ¬ rangeScanFails (calls.foldl SeedCall.run (hostOf Ledger.empty)) := by
    unfold rangeScanFails
    rw [hrange, hinv.2]
    simp [hostOf]
  rw [queryAllTickets_of_ok _ hok, hrange]
  rfl

/-- C9 at concrete calls: after `initLedger` and a `createTicket` under "Ticket77" on the
empty ledger, `queryAllTickets` returns "[]". -/
theorem queryAllTickets_misses_Ticket_keys_witness :
    (∀ c ∈ [SeedCall.initLedger,
        SeedCall.createTicket [utf8 "Ticket77", utf8 "a", utf8 "b", utf8 "c", utf8 "d"]],
      c.ticketKeyed) ∧
    queryAllTickets ([SeedCall.initLedger,
        SeedCall.createTicket [utf8 "Ticket77", utf8 "a", utf8 "b", utf8 "c", utf8 "d"]].foldl
          SeedCall.run (hostOf Ledger.empty))
      = (Response.Success (utf8 "[]"), [SeedCall.initLedger,
        SeedCall.createTicket [utf8 "Ticket77", utf8 "a", utf8 "b", utf8 "c", utf8 "d"]].foldl
          SeedCall.run (hostOf Ledger.empty)) :=
  have hc : ∀ c ∈ [SeedCall.initLedger,
      SeedCall.createTicket [utf8 "Ticket77", utf8 "a", utf8 "b", utf8 "c", utf8 "d"]],
      c.ticketKeyed := by
    intro c hc
    simp only [List.mem_cons, List.mem_singleton, List.not_mem_nil, or_false] at hc
    rcases hc with rfl | rfl
    · trivial
    · show utf8 "Ticket" <+: utf8 "Ticket77"
      exact ⟨utf8 "77", by decide⟩
  ⟨hc, queryAllTickets_misses_Ticket_keys.2 _ hc⟩

/-- C10, amended: for every ledger (served by a host whose reads and writes do not fail) in
which `k` is absent, or holds bytes that do not decode to a ticket and from which the decoder,
before it fails, has stored no organiser, event or date other than the empty string, and for
every string `w`, `changeTicketOwner` on `[k, w]` succeeds and leaves at `k` the JSON encoding
of the ticket with empty organiser, event and date and owner `w`; no other key changes. -/
theorem changeTicketOwner_phantom (L : Ledger) (k w : Bytes)
    (h : L.get k = none ∨
      ∃ v, L.get k = some v ∧ (¬ ∃ t, decodesTo v t) ∧
        (Unmarshal v zeroTicket).1.Organisator = [] ∧ (Unmarshal v zeroTicket).1.Event = [] ∧
        (Unmarshal v zeroTicket).1.Date = []) :
    (changeTicketOwner (hostOf L) [k, w]).1 = Response.Success [] ∧
    (changeTicketOwner (hostOf L) [k, w]).2.ledger.get k = some (Marshal ⟨[], [], [], w⟩) ∧
    (∀ k', k' ≠ k → (changeTicketOwner (hostOf L) [k, w]).2.ledger.get k' = L.get k') := by
  rw [changeTicketOwner_ok (hostOf L) k w rfl rfl]
  refine ⟨rfl, ?_, fun k' hk' => Ledger.get_put_ne _ _ _ _ hk'⟩
  simp only
  rw [Ledger.get_put_same, show (hostOf L).ledger = L from rfl]
  rcases h with h | ⟨v, hv, _, ho, he, hd⟩
  · rw [h]
    rfl
  · rw [hv]
    simp only [Option.getD_some]
    have ho' : (Unmarshal v ⟨[], [], [], []⟩).1.Organisator = [] := ho
    have he' : (Unmarshal v ⟨[], [], [], []⟩).1.Event = [] := he
    have hd' : (Unmarshal v ⟨[], [], [], []⟩).1.Date = [] := hd
    rw [ho', he', hd']

theorem not_decodes_of_error (v : Bytes) (h : (Unmarshal v zeroTicket).2 = true) :
    ¬ ∃ t, decodesTo v t := by
  rintro ⟨t, ht⟩
  unfold decodesTo at ht
  rw [ht] at h
  simp at h

/-- C10 at concrete inputs: a transfer of the absent key "Ticket9", one of "Ticket8", which
holds a JSON array, and one of "Ticket6", which holds the undecodable object `{"event":5}`,
each leave a record with owner "Zoë" and nothing else. -/
theorem changeTicketOwner_phantom_witness :
    (sampleLedger.get (utf8 "Ticket9") = none ∧
      (changeTicketOwner (hostOf sampleLedger) [utf8 "Ticket9", utf8 "Zoë"]).2.ledger.get
          (utf8 "Ticket9")
        = some (Marshal ⟨[], [], [], utf8 "Zoë"⟩)) ∧
    (oddLedger.get (utf8 "Ticket8") = some (utf8 "[1,2]") ∧
      (changeTicketOwner (hostOf oddLedger) [utf8 "Ticket8", utf8 "Zoë"]).2.ledger.get
          (utf8 "Ticket8")
        = some (Marshal ⟨[], [], [], utf8 "Zoë"⟩)) ∧
    (oddLedger.get (utf8 "Ticket6") = some (utf8 "\x7b\"event\":5\x7d") ∧
      (changeTicketOwner (hostOf oddLedger) [utf8 "Ticket6", utf8 "Zoë"]).2.ledger.get
          (utf8 "Ticket6")
        = some (Marshal ⟨[], [], [], utf8 "Zoë"⟩)) :=
  ⟨⟨by decide,
    (changeTicketOwner_phantom sampleLedger (utf8 "Ticket9") (utf8 "Zoë")
      (Or.inl (by decide))).2.1⟩,
   ⟨by decide,
    (changeTicketOwner_phantom oddLedger (utf8 "Ticket8") (utf8 "Zoë")
      (Or.inr ⟨utf8 "[1,2]", by decide, not_decodes_of_error _ (by decide), by decide,
        by decide, by decide⟩)).2.1⟩,
   ⟨by decide,
    (changeTicketOwner_phantom oddLedger (utf8 "Ticket6") (utf8 "Zoë")
      (Or.inr ⟨utf8 "\x7b\"event\":5\x7d", by decide, not_decodes_of_error _ (by decide), by decide,
        by decide, by decide⟩)).2.1⟩⟩

/-- C10 as stated fails: "Ticket7" of `oddLedger` holds an object with a number as event,
which does not decode to any ticket, yet a transfer keeps its organiser "A": the value left
at the key is not the encoding of the ticket with empty organiser, event and date. -/
theorem changeTicketOwner_phantom_counterexample :
    (∃ v, oddLedger.get (utf8 "Ticket7") = some v ∧ ¬ ∃ t, decodesTo v t) ∧
    (changeTicketOwner (hostOf oddLedger) [utf8 "Ticket7", utf8 "B"]).1
      = Response.Success [] ∧
    (changeTicketOwner (hostOf oddLedger) [utf8 "Ticket7", utf8 "B"]).2.ledger.get
        (utf8 "Ticket7")
      = some (Marshal ⟨utf8 "A", [], [], utf8 "B"⟩) ∧
    (changeTicketOwner (hostOf oddLedger) [utf8 "Ticket7", utf8 "B"]).2.ledger.get
        (utf8 "Ticket7")
      ≠ some (Marshal ⟨[], [], [], utf8 "B"⟩) := by
  refine ⟨⟨utf8 "\x7b\"organisator\":\"A\",\"event\":5\x7d", by decide, ?_⟩, by decide, by decide,
    by decide⟩
  rintro ⟨t, ht⟩
  have herr : (Unmarshal (utf8 "\x7b\"organisator\":\"A\",\"event\":5\x7d") zeroTicket).2 = true := by
    decide
  unfold decodesTo at ht
  rw [ht] at herr
  simp at herr

end TestNetwork
